import Mathlib

/-!
The package `tpmjwt`: a TPM-backed signing method for golang-jwt.

A shallow embedding of `tpmsigner.go` (package `tpmjwt`) together with the parts of its
dependencies that the package calls: `encoding/base64`, `context`, the signing-method registry
and the RS256 verifier of `github.com/golang-jwt/jwt`, and the command layer of
`go-tpm` / `go-tpm-tools`, which is taken as a parameter.
-/

namespace TpmJwt

/-! ## Bytes and `encoding/base64` -/

/-- A Go `byte`. -/
abbrev Byte := Fin 256

/-- A Go `[]byte` (also the bytes of a Go `string` that is converted with `[]byte(s)`). -/
abbrev Bytes := List Byte

/-- Go conversion `byte(x)` of an unsigned integer: truncation to eight bits. -/
def toByte (x : Nat) : Byte := ⟨x % 256, Nat.mod_lt x (by decide)⟩

/-- The constant `encodeURL` of `encoding/base64`. -/
def encodeURL : String := "ABCDEFGHIJKLMNOPQRSTUVWXYZabcdefghijklmnopqrstuvwxyz0123456789-_"

/-- The type `base64.Encoding`: the alphabet and the padding character
(`none` is `base64.NoPadding`). The decode map is derived from the alphabet, as `NewEncoding`
does. -/
structure Encoding where
  encode : List Char
  padChar : Option Char
deriving DecidableEq, Repr

/-- The variable `base64.URLEncoding`: `NewEncoding(encodeURL)`, padded with `=`. -/
def URLEncoding : Encoding := { encode := encodeURL.data, padChar := some '=' }

/-- The variable `base64.RawURLEncoding`: `URLEncoding.WithPadding(NoPadding)`. -/
def RawURLEncoding : Encoding := { URLEncoding with padChar := none }

/-- The lookup `enc.encode[i]` in the 64-character alphabet. -/
def Encoding.encodeAt (enc : Encoding) (i : Nat) : Char := enc.encode.getD i '\x00'

/-- The padding that `Encode` writes after a short final block: `n` pad characters, or nothing
for an encoding with `NoPadding`. -/
def Encoding.padding (enc : Encoding) (n : Nat) : List Char :=
  match enc.padChar with
  | some c => List.replicate n c
  | none => []

/-- The method `(*Encoding).Encode`: full three-byte groups become four characters; a final
block of one or two bytes becomes two or three characters followed by the padding. -/
def Encoding.Encode (enc : Encoding) : Bytes → List Char
  | b0 :: b1 :: b2 :: rest =>
    let val := (b0.val <<< 16) ||| (b1.val <<< 8) ||| b2.val
    enc.encodeAt ((val >>> 18) &&& 0x3F) :: enc.encodeAt ((val >>> 12) &&& 0x3F) ::
      enc.encodeAt ((val >>> 6) &&& 0x3F) :: enc.encodeAt (val &&& 0x3F) :: Encoding.Encode enc rest
  | [b0, b1] =>
    let val := (b0.val <<< 16) ||| (b1.val <<< 8)
    [enc.encodeAt ((val >>> 18) &&& 0x3F), enc.encodeAt ((val >>> 12) &&& 0x3F),
      enc.encodeAt ((val >>> 6) &&& 0x3F)] ++ enc.padding 1
  | [b0] =>
    let val := b0.val <<< 16
    [enc.encodeAt ((val >>> 18) &&& 0x3F), enc.encodeAt ((val >>> 12) &&& 0x3F)] ++ enc.padding 2
  | [] => []

/-- The method `(*Encoding).EncodeToString`. -/
def Encoding.EncodeToString (enc : Encoding) (src : Bytes) : String := String.mk (enc.Encode src)

/-- The method `(*Encoding).EncodedLen`. -/
def Encoding.EncodedLen (enc : Encoding) (n : Nat) : Nat :=
  match enc.padChar with
  | none => n / 3 * 4 + (n % 3 * 8 + 5) / 6
  | some _ => (n + 2) / 3 * 4

/-- The table `enc.decodeMap`: the position of a character in the alphabet, `none` standing
for the entry `0xff` of a character outside it. -/
def Encoding.decodeMap (enc : Encoding) (c : Char) : Option Nat :=
  let i := enc.encode.indexOf c
  if i < enc.encode.length then some i else none

/-- The conversion at the end of `decodeQuantum`: `dlen` six-bit values (two to four of
them) give `dlen - 1` bytes. -/
def quantumBytes (dbuf : List Nat) : Bytes :=
  let val := (dbuf.getD 0 0 <<< 18) ||| (dbuf.getD 1 0 <<< 12) ||| (dbuf.getD 2 0 <<< 6) |||
    dbuf.getD 3 0
  [toByte (val >>> 16), toByte (val >>> 8), toByte val].take (dbuf.length - 1)

/-- The loops `for si < len(src) && (src[si] == '\n' || src[si] == '\r')` of
`decodeQuantum`. -/
def skipNewlines : List Char → List Char
  | c :: rest => if c = '\n' ∨ c = '\r' then skipNewlines rest else c :: rest
  | [] => []

/-- The method `(*Encoding).Decode` in its non-strict mode, as a function of the remaining
input and of the six-bit values `dbuf` collected for the current quantum. `none` is a
`CorruptInputError` (its offset is not modelled). -/
def Encoding.decodeFrom (enc : Encoding) : List Char → List Nat → Option Bytes
  | [], dbuf =>
    if dbuf.length = 0 then some []
    else if dbuf.length = 1 ∨ enc.padChar ≠ none then none
    else some (quantumBytes dbuf)
  | c :: rest, dbuf =>
    match enc.decodeMap c with
    | some out =>
      if dbuf.length = 3 then
        (Encoding.decodeFrom enc rest []).map (fun tl => quantumBytes (dbuf ++ [out]) ++ tl)
      else Encoding.decodeFrom enc rest (dbuf ++ [out])
    | none =>
      if c = '\n' ∨ c = '\r' then Encoding.decodeFrom enc rest dbuf
      else if some c ≠ enc.padChar then none
      else if dbuf.length < 2 then none
      else if dbuf.length = 2 then
        match skipNewlines rest with
        | [] => none
        | c2 :: rest2 =>
          if some c2 ≠ enc.padChar then none
          else if skipNewlines rest2 ≠ [] then none
          else some (quantumBytes dbuf)
      else if skipNewlines rest ≠ [] then none
      else some (quantumBytes dbuf)

/-- The method `(*Encoding).DecodeString`; `none` is a non-nil error. -/
def Encoding.DecodeString (enc : Encoding) (s : String) : Option Bytes :=
  enc.decodeFrom s.data []

/-! ## Values, errors and outcomes -/

/-- A pointer to an allocated object: an index into the list of objects of its type. Reading
through an index that is not allocated is treated like reading through the nil pointer. -/
abbrev Ptr := Nat

/-- A call either returns a value or panics (with the run-time error "invalid memory address
or nil pointer dereference", or in `context.WithValue` on a nil parent). -/
inductive Outcome (α : Type) where
  | returned (v : α)
  | panicked
deriving DecidableEq, Repr

/-- The Go `error` values of the package and of the libraries it calls. An error built with
`fmt.Errorf` is kept as its format and its arguments. -/
inductive Error where
  -- The value `jwt.ErrInvalidKey`.
  | ErrInvalidKey
  -- The value `jwt.ErrInvalidKeyType`.
  | ErrInvalidKeyType
  -- The value `jwt.ErrHashUnavailable`.
  | ErrHashUnavailable
  -- The value `errMissingConfig`.
  | errMissingConfig
  -- The value `errMissingTPM` (declared by the package, returned nowhere).
  | errMissingTPM
  -- A `base64.CorruptInputError`.
  | CorruptInputError
  -- The value `rsa.ErrVerification`.
  | ErrVerification
  -- An error created by the device layer (`go-tpm`, `go-tpm-tools`, the operating system).
  | external (msg : String)
  -- The error `fmt.Errorf("tpmjwt: can't open TPM %q: %v", device, err)`.
  | cantOpenTPM (device : String) (err : Error)
  -- The error `fmt.Errorf("tpmjwt: getting handles: %v", err)`.
  | gettingHandles (err : Error)
  -- The error `fmt.Errorf("tpmjwt: error flushing handle 0x%x: %v", handle, err)`.
  | flushingHandle (handle : Nat) (err : Error)
  -- The error `fmt.Errorf("tpmjwt: error loading TPM: %v", err)`.
  | loadingTPM (err : Error)
  -- The error `fmt.Errorf("failed to sign data: %v", err)`.
  | failedToSign (err : Error)
deriving DecidableEq, Repr

/-- A library call that returns `(value, error)`: `ok v` is `(v, nil)` and `fail e` is
`(zero value, e)`. -/
inductive Res (α : Type) where
  | ok (v : α)
  | fail (e : Error)
deriving DecidableEq, Repr

/-! ## `context` -/

/-- The keys under which a `context.Context` stores values: the value `tpmConfigKey{}` of the
package-private type `tpmConfigKey`, or a key of any other type. -/
inductive CtxKey where
  | tpmConfigKey
  | other (name : String)
deriving DecidableEq, Repr

/-- The values (`interface{}`) a context stores, by dynamic type: the nil interface, a
`*TPMConfig` (`none` is the nil pointer of that type), or a value of another type. -/
inductive CtxValue where
  | nil
  | tpmConfig (p : Option Ptr)
  | str (s : String)
  | int (n : Int)
deriving DecidableEq, Repr

/-- A non-nil `context.Context` as far as `Value` sees it: `context.Background()` or
`context.WithValue(parent, key, val)`. Where the code can receive the nil interface in its
place, the argument is an `Option Context`. -/
inductive Context where
  | background
  | withValue (parent : Context) (key : CtxKey) (val : CtxValue)
deriving DecidableEq, Repr

/-- The method `Context.Value`: the value of the innermost `WithValue` with an equal key, the
nil interface when there is none. -/
def Context.Value : Context → CtxKey → CtxValue
  | .background, _ => .nil
  | .withValue parent k v, key => if k = key then v else parent.Value key

/-- Whether some `WithValue` of the chain stores a `*TPMConfig` under the carrier key. -/
def Context.storesConfig : Context → Bool
  | .background => false
  | .withValue parent k v =>
    (k = .tpmConfigKey && (match v with | .tpmConfig _ => true | _ => false)) ||
      parent.storesConfig

/-! ## Keys, templates and the configuration -/

/-- The type `rsa.PublicKey`. -/
structure RSAPublicKey where
  N : Nat
  E : Nat
deriving DecidableEq, Repr

/-- The type `ecdsa.PublicKey`. -/
structure ECDSAPublicKey where
  Curve : String
  X : Nat
  Y : Nat
deriving DecidableEq, Repr

/-- The values of type `interface{}` that reach `Sign` and `Verify` as their `key` argument
and that a `crypto.PublicKey` holds, by dynamic type. -/
inductive Any where
  | nil
  | context (c : Context)
  | rsaPublicKey (k : RSAPublicKey)
  | ecdsaPublicKey (k : ECDSAPublicKey)
  | bytes (b : Bytes)
  | str (s : String)
deriving DecidableEq, Repr

/-- The type `crypto.Hash`. -/
inductive Hash where
  | SHA256
  | SHA384
  | SHA512
deriving DecidableEq, Repr

/-- The type `tpm2.SigScheme`. -/
structure SigScheme where
  Alg : Nat
  Hash : Nat
deriving DecidableEq, Repr

/-- The type `tpm2.RSAParams` (the fields a signing key sets). -/
structure RSAParams where
  Sign : Option SigScheme
  KeyBits : Nat
deriving DecidableEq, Repr

/-- The type `tpm2.ECCParams` (the fields a signing key sets). -/
structure ECCParams where
  Sign : Option SigScheme
  CurveID : Nat
deriving DecidableEq, Repr

/-- The type `tpm2.Public`, a key template; `AlgType` is its field `Type`. -/
structure Public where
  AlgType : Nat
  NameAlg : Nat
  Attributes : Nat
  AuthPolicy : Bytes
  RSAParameters : Option RSAParams
  ECCParameters : Option ECCParams
deriving DecidableEq, Repr

/-- The constant `tpm2.AlgRSA`. -/
def AlgRSA : Nat := 0x0001
/-- The constant `tpm2.AlgSHA256`. -/
def AlgSHA256 : Nat := 0x000B
/-- The constant `tpm2.AlgRSASSA`. -/
def AlgRSASSA : Nat := 0x0014
/-- The constant `tpm2.AlgECDSA`. -/
def AlgECDSA : Nat := 0x0018
/-- The constant `tpm2.AlgECC`. -/
def AlgECC : Nat := 0x0023
/-- The constant `tpm2.FlagFixedTPM`. -/
def FlagFixedTPM : Nat := 0x00000002
/-- The constant `tpm2.FlagFixedParent`. -/
def FlagFixedParent : Nat := 0x00000010
/-- The constant `tpm2.FlagSensitiveDataOrigin`. -/
def FlagSensitiveDataOrigin : Nat := 0x00000020
/-- The constant `tpm2.FlagUserWithAuth`. -/
def FlagUserWithAuth : Nat := 0x00000040
/-- The constant `tpm2.FlagSign`. -/
def FlagSign : Nat := 0x00040000
/-- The constant `tpm2.HandleOwner`. -/
def HandleOwner : Nat := 0x40000001

/-- The variable `UnrestrictedKeyParametersRSA256`. -/
def UnrestrictedKeyParametersRSA256 : Public :=
  { AlgType := AlgRSA
    NameAlg := AlgSHA256
    Attributes := FlagFixedTPM ||| FlagFixedParent ||| FlagSensitiveDataOrigin |||
      FlagUserWithAuth ||| FlagSign
    AuthPolicy := []
    RSAParameters := some { Sign := some { Alg := AlgRSASSA, Hash := AlgSHA256 }, KeyBits := 2048 }
    ECCParameters := none }

/-- The type `TPMConfig`. -/
structure TPMConfig where
  TPMDevice : String
  KeyID : String
  KeyTemplate : Public
  publicKeyFromTPM : Any
deriving DecidableEq, Repr

/-- The method `(*TPMConfig).GetKeyID`. -/
def TPMConfig.GetKeyID (k : TPMConfig) : String := k.KeyID

/-- The method `(*TPMConfig).GetPublicKey`. -/
def TPMConfig.GetPublicKey (k : TPMConfig) : Any := k.publicKeyFromTPM

/-! ## The device layer -/

/-- The type `tpm2.HandleType`, for the classes the package names. -/
inductive HandleType where
  | HandleTypeLoadedSession
  | HandleTypeSavedSession
  | HandleTypeTransient
deriving DecidableEq, Repr

/-- An open device, the non-nil `io.ReadWriteCloser` that `tpm2.OpenTPM` returns. -/
abbrev RWC := Nat

/-- A loaded key, the `*client.Key` that `client.NewKey` returns: its handle, the public key
`PublicKey()` returns and the digest `Name().Digest.Value`. -/
structure Key where
  handle : Nat
  pubKey : Any
  name : Bytes
deriving DecidableEq, Repr

/-- The calls the package makes into `go-tpm` and `go-tpm-tools`, over a device state `σ`.
Every theorem holds for every such device. -/
structure TPM (σ : Type) where
  -- The function `tpm2.OpenTPM(device)`.
  OpenTPM : String → σ → Res RWC × σ
  -- The method `rwc.Close()`.
  Close : RWC → σ → Option Error × σ
  -- The function `client.Handles(rwc, handleType)`.
  Handles : RWC → HandleType → σ → Res (List Nat) × σ
  -- The function `tpm2.FlushContext(rwc, handle)`.
  FlushContext : RWC → Nat → σ → Option Error × σ
  -- The function `client.NewKey(rwc, parent, template)`.
  NewKey : RWC → Nat → Public → σ → Res Key × σ
  -- The method `(*client.Key).Close()`.
  KeyClose : Key → σ → σ
  -- The method `(*client.Key).SignData(data)`.
  SignData : Key → Bytes → σ → Res Bytes × σ

/-- What the process does that is visible from outside: the calls into the device layer, in
the order they are made (an enumeration of handles and a flush of a handle with what the
device returned), and the line `NewTPMContext` prints. -/
inductive Event where
  | openTPM (device : String)
  | close (rwc : RWC)
  | handles (rwc : RWC) (handleType : HandleType) (result : Res (List Nat))
  | flushContext (rwc : RWC) (handle : Nat) (result : Option Error)
  | newKey (rwc : RWC) (parent : Nat) (template : Public)
  | keyClose (k : Key)
  | signData (k : Key) (data : Bytes)
  | printf (name : Bytes)
deriving DecidableEq, Repr

/-! ## Signing methods and the registry of `jwt` -/

/-- The type `jwt.SigningMethodRSA`. -/
structure SigningMethodRSA where
  Name : String
  Hash : Hash
deriving DecidableEq, Repr

/-- The variable `jwt.SigningMethodRS256`. -/
def SigningMethodRS256 : SigningMethodRSA := { Name := "RS256", Hash := .SHA256 }

/-- The method `(*jwt.SigningMethodRSA).Alg`. -/
def SigningMethodRSA.Alg (m : SigningMethodRSA) : String := m.Name

/-- The type `SigningMethodTPM`; `override` is a `jwt.SigningMethod`, `none` the nil
interface. -/
structure SigningMethodTPM where
  alg : String
  override : Option SigningMethodRSA
  hasher : Hash
deriving DecidableEq, Repr

/-- A `jwt.SigningMethod` returned by a registry lookup: nil, a software method of `jwt`
(by name), or a pointer to a `SigningMethodTPM`. -/
inductive SigningMethod where
  | nil
  | software (name : String)
  | tpm (p : Ptr)
deriving DecidableEq, Repr

/-- The functions stored in the registry: the closure of `init`, which returns the current
value of the package variable `SigningMethodTPMRS256`, or a closure that returns a fixed
method (the one of `Override` returns its receiver). -/
inductive Factory where
  | packageVar
  | const (m : SigningMethod)
deriving DecidableEq, Repr

/-! ## The state of the process -/

/-- The state of the process: the device, the allocated `TPMConfig` and `SigningMethodTPM`
objects, the package variable `SigningMethodTPMRS256`, the map `signingMethods` of `jwt`,
and the events so far. -/
structure World (σ : Type) where
  tpm : σ
  heap : List TPMConfig
  methods : List SigningMethodTPM
  SigningMethodTPMRS256 : Option Ptr
  signingMethods : List (String × Factory)
  trace : List Event
deriving DecidableEq, Repr

/-- Records an event. -/
def World.emit {σ : Type} (w : World σ) (e : Event) : World σ :=
  { w with trace := w.trace ++ [e] }

/-- The variable `handleNames`; a name that is not a key of the map gives the nil slice. -/
def handleNames (flush : String) : List HandleType :=
  if flush = "all" then
    [.HandleTypeLoadedSession, .HandleTypeSavedSession, .HandleTypeTransient]
  else if flush = "loaded" then [.HandleTypeLoadedSession]
  else if flush = "saved" then [.HandleTypeSavedSession]
  else if flush = "transient" then [.HandleTypeTransient]
  else []

/-- A call registered with `defer`. -/
inductive Deferred where
  | rwcClose (rwc : RWC)
  | keyClose (k : Key)
deriving DecidableEq, Repr

/-- Runs one deferred call; its result is discarded. -/
def Deferred.run {σ : Type} (hw : TPM σ) (d : Deferred) (w : World σ) : World σ :=
  match d with
  | .rwcClose rwc => { w with tpm := (hw.Close rwc w.tpm).2 }.emit (.close rwc)
  | .keyClose k => { w with tpm := hw.KeyClose k w.tpm }.emit (.keyClose k)

/-- Runs the deferred calls of a returning function; the list is the stack of `defer`
statements executed so far, the most recent first. -/
def runDeferred {σ : Type} (hw : TPM σ) : List Deferred → World σ → World σ
  | [], w => w
  | d :: ds, w => runDeferred hw ds (d.run hw w)

/-! ## `tpmsigner.go` -/

/-- The inner loop of `loadTPM`, `for _, handle := range handles`: flushes the handles in
order and stops at the first failure with the error the function returns. -/
def flushHandles {σ : Type} (hw : TPM σ) (rwc : RWC) : List Nat → World σ → Option Error × World σ
  | [], w => (none, w)
  | handle :: rest, w =>
    let r := hw.FlushContext rwc handle w.tpm
    let w1 := { w with tpm := r.2 }.emit (.flushContext rwc handle r.1)
    match r.1 with
    | some err => (some (.flushingHandle handle err), w1)
    | none => flushHandles hw rwc rest w1

/-- The outer loop of `loadTPM`, `for _, handleType := range handleNames[flush]`: enumerates
each class and flushes its handles, and stops at the first failure with the error the
function returns. -/
def flushClasses {σ : Type} (hw : TPM σ) (rwc : RWC) : List HandleType → World σ → Option Error × World σ
  | [], w => (none, w)
  | handleType :: rest, w =>
    let r := hw.Handles rwc handleType w.tpm
    let w1 := { w with tpm := r.2 }.emit (.handles rwc handleType r.1)
    match r.1 with
    | .fail err => (some (.gettingHandles err), w1)
    | .ok handles =>
      match flushHandles hw rwc handles w1 with
      | (some e, w2) => (some e, w2)
      | (none, w2) => flushClasses hw rwc rest w2

/-- The function `loadTPM`. Both error exits of the loops execute `defer rwc.Close()` and
return `nil` with the error, so the device is closed when the function returns. The counter
`totalHandles` is never read and is left out. -/
def loadTPM {σ : Type} (hw : TPM σ) (device flush : String) (w : World σ) :
    (Option RWC × Option Error) × World σ :=
  let r := hw.OpenTPM device w.tpm
  let w1 := { w with tpm := r.2 }.emit (.openTPM device)
  match r.1 with
  | .fail err => ((none, some (.cantOpenTPM device err)), w1)
  | .ok rwc =>
    match flushClasses hw rwc (handleNames flush) w1 with
    | (some e, w2) => ((none, some e), runDeferred hw [.rwcClose rwc] w2)
    | (none, w2) => ((some rwc, none), w2)

/-- The function `loadKey`. -/
def loadKey {σ : Type} (hw : TPM σ) (rwc : RWC) (keyTemplate : Public) (w : World σ) :
    Res Key × World σ :=
  let r := hw.NewKey rwc HandleOwner keyTemplate w.tpm
  (r.1, { w with tpm := r.2 }.emit (.newKey rwc HandleOwner keyTemplate))

/-- The function `NewTPMContext`. `val` is a `*TPMConfig`; reading `val.TPMDevice` through a
nil pointer panics. `parent` is a `context.Context`, `none` the nil interface: the call
`context.WithValue(parent, ...)` of the last statement panics on a nil parent, after the
assignment to `val.publicKeyFromTPM`, and the deferred calls run while the panic unwinds. -/
def NewTPMContext {σ : Type} (hw : TPM σ) (parent : Option Context) (val : Option Ptr)
    (w : World σ) :
    Outcome (Option Context × Option Error) × World σ :=
  match val with
  | none => (.panicked, w)
  | some p =>
    match w.heap[p]? with
    | none => (.panicked, w)
    | some cfg =>
      match loadTPM hw cfg.TPMDevice "none" w with
      | ((_, some err), w1) => (.returned (none, some (.loadingTPM err)), w1)
      | ((none, none), w1) => (.panicked, w1)
      | ((some rwc, none), w1) =>
        let r := hw.NewKey rwc HandleOwner cfg.KeyTemplate w1.tpm
        let w2 := { w1 with tpm := r.2 }.emit (.newKey rwc HandleOwner cfg.KeyTemplate)
        match r.1 with
        | .fail err => (.returned (none, some err), runDeferred hw [.rwcClose rwc] w2)
        | .ok k =>
          let w3 := w2.emit (.printf k.name)
          let w4 := { w3 with heap := w3.heap.set p { cfg with publicKeyFromTPM := k.pubKey } }
          match parent with
          | none => (.panicked, runDeferred hw [.keyClose k, .rwcClose rwc] w4)
          | some ctx =>
            (.returned (some (.withValue ctx .tpmConfigKey (.tpmConfig (some p))), none),
              runDeferred hw [.keyClose k, .rwcClose rwc] w4)

/-- The function `TPMFromContext`: the type assertion `ctx.Value(tpmConfigKey{}).(*TPMConfig)`. -/
def TPMFromContext (ctx : Context) : Option Ptr × Bool :=
  match ctx.Value .tpmConfigKey with
  | .tpmConfig p => (p, true)
  | _ => (none, false)

/-- The software methods `jwt` registers in its own `init` functions are in the map before
`init` of this package runs; `RegisterSigningMethod` is the assignment
`signingMethods[alg] = f`. -/
def RegisterSigningMethod {σ : Type} (alg : String) (f : Factory) (w : World σ) : World σ :=
  { w with signingMethods := (alg, f) :: w.signingMethods.filter (fun e => e.1 ≠ alg) }

/-- Calls a function stored in the registry. -/
def Factory.call {σ : Type} (f : Factory) (w : World σ) : SigningMethod :=
  match f with
  | .packageVar =>
    match w.SigningMethodTPMRS256 with
    | some p => .tpm p
    | none => .nil
  | .const m => m

/-- The function `jwt.GetSigningMethod`. -/
def GetSigningMethod {σ : Type} (alg : String) (w : World σ) : SigningMethod :=
  match w.signingMethods.lookup alg with
  | some f => f.call w
  | none => .nil

/-- The method `(*SigningMethodTPM).Alg`; `none` is the panic of a receiver that is not
allocated. -/
def Alg {σ : Type} (s : Ptr) (w : World σ) : Option String := (w.methods[s]?).map (fun m => m.alg)

/-- The method `(*SigningMethodTPM).Hash`. -/
def SigningMethodTPM.Hash {σ : Type} (s : Ptr) (w : World σ) : Option Hash :=
  (w.methods[s]?).map (fun m => m.hasher)

/-- The function `init`: allocates the method, stores it in the package variable and
registers the closure under `SigningMethodTPMRS256.Alg()`. -/
def init {σ : Type} (w : World σ) : World σ :=
  let p := w.methods.length
  let w1 := { w with
    methods := w.methods ++ [{ alg := "TPMRS256", override := some SigningMethodRS256, hasher := .SHA256 }]
    SigningMethodTPMRS256 := some p }
  match Alg p w1 with
  | some alg => RegisterSigningMethod alg .packageVar w1
  | none => w1

/-- The method `(*SigningMethodTPM).Override`. Calling `Alg()` on a nil `override` panics. -/
def Override {σ : Type} (s : Ptr) (w : World σ) : Outcome Unit × World σ :=
  match w.methods[s]? with
  | none => (.panicked, w)
  | some m =>
    match m.override with
    | none => (.panicked, w)
    | some o =>
      let w1 := { w with methods := w.methods.set s { m with alg := o.Alg } }
      (.returned (), RegisterSigningMethod o.Alg (.const (.tpm s)) w1)

/-- The method `(*SigningMethodTPM).Sign`. The receiver is not used by the body. The stack of
deferred calls is run when the function returns. In the branch `if err != nil` after
`loadTPM`, the statement `defer rwc.Close()` evaluates the method value of `rwc`: with the nil
interface that `loadTPM` returns beside an error this panics before `return` is reached. -/
def Sign {σ : Type} (hw : TPM σ) (_s : Ptr) (signingString : Bytes) (key : Any) (w : World σ) :
    Outcome (String × Option Error) × World σ :=
  match key with
  | .context ctx =>
    match TPMFromContext ctx with
    | (_, false) => (.returned ("", some .errMissingConfig), w)
    | (none, true) => (.panicked, w)
    | (some p, true) =>
      match w.heap[p]? with
      | none => (.panicked, w)
      | some config =>
        match loadTPM hw config.TPMDevice "none" w with
        | ((none, some _), w1) => (.panicked, w1)
        | ((some rwc, some err), w1) => (.returned ("", some err), runDeferred hw [.rwcClose rwc] w1)
        | ((none, none), w1) => (.panicked, w1)
        | ((some rwc, none), w1) =>
          match loadKey hw rwc config.KeyTemplate w1 with
          | (.fail err, w2) => (.returned ("", some err), runDeferred hw [.rwcClose rwc] w2)
          | (.ok kk, w2) =>
            let r := hw.SignData kk signingString w2.tpm
            let w3 := { w2 with tpm := r.2 }.emit (.signData kk signingString)
            match r.1 with
            | .fail err =>
              (.returned ("", some (.failedToSign err)),
                runDeferred hw [.keyClose kk, .rwcClose rwc] w3)
            | .ok signedBytes =>
              (.returned (RawURLEncoding.EncodeToString signedBytes, none),
                runDeferred hw [.keyClose kk, .rwcClose rwc] w3)
  | _ => (.returned ("", some .ErrInvalidKey), w)

/-- The function `TPMVerfiyKeyfunc`: the key function it returns gives, for every token, the
public key cached in the configuration at the time it is called (`none` for a configuration
that is not allocated). -/
def TPMVerfiyKeyfunc {σ : Type} (_ctx : Context) (config : Ptr) (w : World σ) : Option Any :=
  (w.heap[config]?).map (fun c => c.publicKeyFromTPM)

/-! ## The verifier of `jwt` -/

/-- The primitives of the Go standard library that `jwt` calls to verify an RS256
signature. -/
structure Crypto where
  -- The method `crypto.Hash.Available`.
  Available : Hash → Bool
  -- The digest `hasher.Sum(nil)` of the bytes written to `hash.New()`.
  Sum : Hash → Bytes → Bytes
  -- The function `rsa.VerifyPKCS1v15(key, hash, hashed, sig)`; `none` is a nil error.
  VerifyPKCS1v15 : RSAPublicKey → Hash → Bytes → Bytes → Option Error

/-- The function `jwt.DecodeSegment` (of the version the package imports): restores the
padding and decodes with `base64.URLEncoding`. A segment is a string of characters; the
length that counts is that of its bytes, which is the number of characters for every string
over the base64 alphabet. -/
def DecodeSegment (seg : String) : Option Bytes :=
  let l := seg.length % 4
  URLEncoding.DecodeString (if l > 0 then seg ++ String.mk (List.replicate (4 - l) '=') else seg)

/-- The method `(*jwt.SigningMethodRSA).Verify`; `none` is a nil error. -/
def SigningMethodRSA.Verify (crypto : Crypto) (m : SigningMethodRSA) (signingString : Bytes)
    (signature : String) (key : Any) : Option Error :=
  match DecodeSegment signature with
  | none => some .CorruptInputError
  | some sig =>
    match key with
    | .rsaPublicKey rsaKey =>
      if !crypto.Available m.Hash then some .ErrHashUnavailable
      else crypto.VerifyPKCS1v15 rsaKey m.Hash (crypto.Sum m.Hash signingString) sig
    | _ => some .ErrInvalidKeyType

/-- The method `(*SigningMethodTPM).Verify`: delegates to `s.override`. -/
def Verify {σ : Type} (crypto : Crypto) (s : Ptr) (signingString : Bytes) (signature : String)
    (key : Any) (w : World σ) : Outcome (Option Error) :=
  match w.methods[s]? with
  | none => .panicked
  | some m =>
    match m.override with
    | none => .panicked
    | some o => .returned (o.Verify crypto signingString signature key)


/-- The padding `jwt.DecodeSegment` restores, as a function of the length of the segment. -/
def segPadding (n : Nat) : List Char := if n % 4 > 0 then List.replicate (4 - n % 4) '=' else []

/-- The result of the software RS256 verification of the signature bytes `sig`: what
`(*jwt.SigningMethodRSA).Verify` computes once the segment is decoded. -/
def rs256VerifyBytes (crypto : Crypto) (signingString : Bytes) (sig : Bytes) (key : Any) :
    Option Error :=
  match key with
  | .rsaPublicKey rsaKey =>
    if !crypto.Available .SHA256 then some .ErrHashUnavailable
    else crypto.VerifyPKCS1v15 rsaKey .SHA256 (crypto.Sum .SHA256 signingString) sig
  | _ => some .ErrInvalidKeyType

/-- The world in which a call returns: the device state `t` it leaves and its events `es`
after those of the world `w` it started in. -/
def World.after {σ : Type} (w : World σ) (t : σ) (es : List Event) : World σ :=
  { w with tpm := t, trace := w.trace ++ es }

/-! ## Observations on traces -/

/-- The events that release a resource: closing a device or closing a key. -/
def Event.isRelease : Event → Bool
  | .close _ => true
  | .keyClose _ => true
  | _ => false

/-- The releases of a run, in the order they happen. -/
def releases (es : List Event) : List Event := es.filter Event.isRelease

/-- The events of a flush without failure: each class is enumerated with success and the
handles the enumeration returned are flushed with success (the device returns a nil error), in
order, before the next class is enumerated. -/
def flushScript (rwc : RWC) : List (HandleType × List Nat) → List Event
  | [] => []
  | (handleType, handles) :: rest =>
    .handles rwc handleType (.ok handles) ::
      handles.map (fun handle => .flushContext rwc handle none) ++ flushScript rwc rest

/-- How a flush that fails ends: with an enumeration of the class `c` for which the device
returned the error `cause`, or with a successful enumeration of `c`, successful flushes of
the handles before `h`, and a flush of `h` for which the device returned the error `cause`. The
handles after `h` are not flushed. -/
def failedStep (rwc : RWC) (c : HandleType) (e : Error) (tail : List Event) : Prop :=
  (∃ cause, e = .gettingHandles cause ∧ tail = [.handles rwc c (.fail cause)]) ∨
  (∃ pre h post cause, e = .flushingHandle h cause ∧
    tail = .handles rwc c (.ok (pre ++ h :: post)) ::
      (pre.map (fun handle => .flushContext rwc handle none) ++
        [.flushContext rwc h (some cause)]))

/-! ## A simulated device

A small deterministic device and toy primitives, to run the package on concrete inputs. -/

/-- The state of the simulated device: the device paths that can be opened, the primary seed
of the owner hierarchy, the handles of each class, and the classes and handles for which the
device answers with an error. -/
structure SimTPM where
  devices : List String
  ownerSeed : Nat
  loaded : List Nat
  saved : List Nat
  transient : List Nat
  failHandles : List HandleType
  failFlush : List Nat
  failSign : Bool
deriving DecidableEq, Repr

/-- A toy signature of 256 bytes, determined by the modulus and the digest. -/
def toySignature (n : Nat) (hashed : Bytes) : Bytes :=
  (List.range 256).map (fun i => toByte (n + i + hashed.foldl (fun a b => a + b.val) 0))

/-- The primary key of the simulated device: a function of the seed and of the template, an
RSA key for an RSA template and an ECDSA key for an ECC template. -/
def simKey (seed : Nat) (template : Public) : Res Key :=
  if template.AlgType = AlgRSA then
    .ok { handle := 0x80000000, pubKey := .rsaPublicKey { N := 2 * seed + 1, E := 65537 },
          name := [toByte seed] }
  else if template.AlgType = AlgECC then
    .ok { handle := 0x80000000, pubKey := .ecdsaPublicKey { Curve := "P-256", X := seed, Y := seed + 1 },
          name := [toByte seed] }
  else .fail (.external "unsupported key type")

/-- The simulated device. -/
def simTPM : TPM SimTPM where
  OpenTPM device t :=
    if device ∈ t.devices then (.ok 3, t) else (.fail (.external "no such file or directory"), t)
  Close _ t := (none, t)
  Handles _ handleType t :=
    if handleType ∈ t.failHandles then (.fail (.external "TPM_RC_FAILURE"), t)
    else
      match handleType with
      | .HandleTypeLoadedSession => (.ok t.loaded, t)
      | .HandleTypeSavedSession => (.ok t.saved, t)
      | .HandleTypeTransient => (.ok t.transient, t)
  FlushContext _ handle t :=
    if handle ∈ t.failFlush then (some (.external "TPM_RC_HANDLE"), t)
    else (none, { t with loaded := t.loaded.erase handle, saved := t.saved.erase handle,
                         transient := t.transient.erase handle })
  NewKey _ _ template t := (simKey t.ownerSeed template, t)
  KeyClose _ t := t
  SignData k data t :=
    if t.failSign then (.fail (.external "TPM_RC_KEY"), t)
    else
      match k.pubKey with
      | .rsaPublicKey pk => (.ok (toySignature pk.N data), t)
      | _ => (.ok ([0x30, 0x06, 0x02, 0x01, 0x01, 0x02, 0x01] ++ [toByte data.length]), t)

/-- Toy primitives: the digest is the message itself and a signature is accepted when it is
the toy signature of the digest. -/
def toyCrypto : Crypto where
  Available _ := true
  Sum _ data := data
  VerifyPKCS1v15 key _ hashed sig :=
    if sig = toySignature key.N hashed then none else some .ErrVerification

/-- Primitives that accept every signature. -/
def permissiveCrypto : Crypto where
  Available _ := true
  Sum _ data := data
  VerifyPKCS1v15 _ _ _ _ := none

/-- The owner hierarchy gets a new primary seed (the effect of `TPM2_Clear`). -/
def SimTPM.clear (t : SimTPM) : SimTPM := { t with ownerSeed := t.ownerSeed + 1 }

/-- A simulated device with one device path and no handles. -/
def simDevice : SimTPM :=
  { devices := ["/dev/tpmrm0"], ownerSeed := 7, loaded := [], saved := [], transient := [],
    failHandles := [], failFlush := [], failSign := false }

/-- The map `signingMethods` when `init` of this package starts: the software methods `jwt`
registers for its standard algorithms. -/
def jwtSigningMethods : List (String × Factory) :=
  ["RS256", "RS384", "RS512", "PS256", "PS384", "PS512", "ES256", "ES384", "ES512",
    "HS256", "HS384", "HS512", "none"].map (fun n => (n, .const (.software n)))

/-- The process before `init` of this package, with the given device and configurations. -/
def startWorld (t : SimTPM) (heap : List TPMConfig) : World SimTPM :=
  { tpm := t, heap := heap, methods := [], SigningMethodTPMRS256 := none,
    signingMethods := jwtSigningMethods, trace := [] }

/-- The configuration of the scenario: the device `/dev/tpmrm0` and the unrestricted RSA
template. -/
def exampleConfig : TPMConfig :=
  { TPMDevice := "/dev/tpmrm0", KeyID := "", KeyTemplate := UnrestrictedKeyParametersRSA256,
    publicKeyFromTPM := .nil }

/-- A configuration whose template asks for an ECC signing key. -/
def eccConfig : TPMConfig :=
  { TPMDevice := "/dev/tpmrm0", KeyID := "",
    KeyTemplate := { UnrestrictedKeyParametersRSA256 with
      AlgType := AlgECC, RSAParameters := none,
      ECCParameters := some { Sign := some { Alg := AlgECDSA, Hash := AlgSHA256 }, CurveID := 3 } },
    publicKeyFromTPM := .nil }

/-- The context `context.WithValue(context.Background(), tpmConfigKey{}, val)` for the
configuration at `p`. -/
def contextOf (p : Ptr) : Context := .withValue .background .tpmConfigKey (.tpmConfig (some p))

/-- A configuration that names a device path that does not exist. -/
def absentDeviceConfig : TPMConfig := { exampleConfig with TPMDevice := "/dev/tpm9" }

/-- The scenario of an ECC template: the process after `init`. -/
def eccStart : World SimTPM := init (startWorld simDevice [eccConfig])

/-- The scenario of an ECC template: the process after `NewTPMContext` on the configuration. -/
def eccMaterialized : World SimTPM := (NewTPMContext simTPM (some .background) (some 0) eccStart).2

/-- The scenario of the unrestricted RSA template: the process after `init`. -/
def rsaStart : World SimTPM := init (startWorld simDevice [exampleConfig])

/-- The scenario of the unrestricted RSA template: the process after `NewTPMContext` on the
configuration. -/
def rsaMaterialized : World SimTPM := (NewTPMContext simTPM (some .background) (some 0) rsaStart).2

/-- The process after the owner hierarchy of the device was cleared and `NewTPMContext` was
called on the same configuration a second time. -/
def rsaMaterializedAgain : World SimTPM :=
  (NewTPMContext simTPM (some .background) (some 0) { rsaMaterialized with tpm := rsaMaterialized.tpm.clear }).2

/-- A simulated device with handles of every class on which the enumeration of the loaded
sessions fails. -/
def stuckDevice : SimTPM :=
  { simDevice with loaded := [0x02000000], saved := [0x03000000], transient := [0x80000001],
                   failHandles := [.HandleTypeLoadedSession] }

/-- A simulated device with two loaded sessions and one saved session on which the flush of
the second loaded session fails. -/
def brokenFlushDevice : SimTPM :=
  { simDevice with loaded := [0x02000000, 0x02000001], saved := [0x03000000],
                   failFlush := [0x02000001] }

/-- The bytes of the string `hello`. -/
def hello : Bytes := [104, 101, 108, 108, 111]

/-- The bytes of the string `hellp`. -/
def hellp : Bytes := [104, 101, 108, 108, 112]

/-! ## Facts about `encoding/base64` -/

/-- The alphabet has 64 characters. -/
theorem encodeURL_length : encodeURL.data.length = 64 := by decide

/-- A lookup below 64 gives a character of the alphabet. -/
theorem encodeAt_mem (i : Nat) (h : i < 64) : URLEncoding.encodeAt i ∈ encodeURL.data := by
  have hi : i < encodeURL.data.length := by rw [encodeURL_length]; exact h
  simp only [Encoding.encodeAt, URLEncoding, List.getD_eq_getElem _ _ hi]
  exact List.getElem_mem hi

/-- The padded and the unpadded URL encoding share the alphabet. -/
theorem raw_encodeAt (i : Nat) : RawURLEncoding.encodeAt i = URLEncoding.encodeAt i := rfl

/-- A value masked with `0x3F` is below 64. -/
theorem and_63_lt (x : Nat) : x &&& 0x3F < 64 := by
  have h := Nat.and_pow_two_sub_one_eq_mod x 6
  have h2 : x &&& 63 = x % 64 := h
  show x &&& 63 < 64
  omega

/-- The decode map inverts the alphabet, for every six-bit value. -/
theorem decodeMap_encodeAt_fin : ∀ i : Fin 64,
    URLEncoding.decodeMap (URLEncoding.encodeAt i.val) = some i.val := by decide

/-- The decode map inverts the alphabet. -/
theorem decodeMap_encodeAt (i : Nat) (h : i < 64) :
    URLEncoding.decodeMap (URLEncoding.encodeAt i) = some i :=
  decodeMap_encodeAt_fin ⟨i, h⟩

/-- The padding character is outside the alphabet. -/
theorem decodeMap_pad : URLEncoding.decodeMap '=' = none := by decide

/-- The bitwise or of a multiple of `2 ^ i` and a value below `2 ^ i` is their sum. -/
theorem or_eq_add_of_dvd (i a b : Nat) (ha : 2 ^ i ∣ a) (hb : b < 2 ^ i) : a ||| b = a + b := by
  obtain ⟨k, rfl⟩ := ha
  exact (Nat.mul_add_lt_is_or hb k).symm

/-- Masking with `0x3F` is the remainder modulo 64. -/
theorem and_63 (x : Nat) : x &&& 0x3F = x % 64 := Nat.and_pow_two_sub_one_eq_mod x 6

/-- Three bytes packed with shifts and ors, as a sum. -/
theorem pack3 (b0 b1 b2 : Nat) (h1 : b1 < 256) (h2 : b2 < 256) :
    (b0 <<< 16) ||| (b1 <<< 8) ||| b2 = b0 * 65536 + b1 * 256 + b2 := by
  have e0 : b0 <<< 16 = b0 * 65536 := Nat.shiftLeft_eq b0 16
  have e1 : b1 <<< 8 = b1 * 256 := Nat.shiftLeft_eq b1 8
  rw [e0, e1, or_eq_add_of_dvd 16 (b0 * 65536) (b1 * 256) ⟨b0, by ring⟩ (by norm_num; omega),
    or_eq_add_of_dvd 8 (b0 * 65536 + b1 * 256) b2 ⟨b0 * 256 + b1, by ring⟩ (by norm_num; omega)]

/-- Four six-bit values packed with shifts and ors, as a sum. -/
theorem pack4 (s0 s1 s2 s3 : Nat) (h1 : s1 < 64) (h2 : s2 < 64) (h3 : s3 < 64) :
    (s0 <<< 18) ||| (s1 <<< 12) ||| (s2 <<< 6) ||| s3 =
      s0 * 262144 + s1 * 4096 + s2 * 64 + s3 := by
  have e0 : s0 <<< 18 = s0 * 262144 := Nat.shiftLeft_eq s0 18
  have e1 : s1 <<< 12 = s1 * 4096 := Nat.shiftLeft_eq s1 12
  have e2 : s2 <<< 6 = s2 * 64 := Nat.shiftLeft_eq s2 6
  rw [e0, e1, e2,
    or_eq_add_of_dvd 18 (s0 * 262144) (s1 * 4096) ⟨s0, by ring⟩ (by norm_num; omega),
    or_eq_add_of_dvd 12 (s0 * 262144 + s1 * 4096) (s2 * 64) ⟨s0 * 64 + s1, by ring⟩
      (by norm_num; omega),
    or_eq_add_of_dvd 6 (s0 * 262144 + s1 * 4096 + s2 * 64) s3 ⟨s0 * 4096 + s1 * 64 + s2, by ring⟩
      (by norm_num; omega)]

/-- A right shift is a division by a power of two. -/
theorem shr (x n : Nat) : x >>> n = x / 2 ^ n := Nat.shiftRight_eq_div_pow x n

/-- The six-bit values of a full group decode to its three bytes. -/
theorem quantum_full (b0 b1 b2 : Byte) :
    quantumBytes
      [((b0.val <<< 16) ||| (b1.val <<< 8) ||| b2.val) >>> 18 &&& 0x3F,
       ((b0.val <<< 16) ||| (b1.val <<< 8) ||| b2.val) >>> 12 &&& 0x3F,
       ((b0.val <<< 16) ||| (b1.val <<< 8) ||| b2.val) >>> 6 &&& 0x3F,
       ((b0.val <<< 16) ||| (b1.val <<< 8) ||| b2.val) &&& 0x3F] = [b0, b1, b2] := by
  have h0 := b0.isLt
  have h1 := b1.isLt
  have h2 := b2.isLt
  simp only [quantumBytes, List.getD_cons_zero, List.getD_cons_succ, List.length_cons,
    List.length_nil, and_63, shr, pack3 _ _ _ h1 h2]
  rw [pack4 _ _ _ _ (Nat.mod_lt _ (by norm_num)) (Nat.mod_lt _ (by norm_num))
    (Nat.mod_lt _ (by norm_num))]
  simp only [toByte, shr]
  norm_num
  refine ⟨Fin.ext ?_, Fin.ext ?_, Fin.ext ?_⟩ <;> simp only [] <;> omega


/-- The six-bit values of a final block of two bytes decode to those bytes. -/
theorem quantum_two (b0 b1 : Byte) :
    quantumBytes
      [((b0.val <<< 16) ||| (b1.val <<< 8)) >>> 18 &&& 0x3F,
       ((b0.val <<< 16) ||| (b1.val <<< 8)) >>> 12 &&& 0x3F,
       ((b0.val <<< 16) ||| (b1.val <<< 8)) >>> 6 &&& 0x3F] = [b0, b1] := by
  have h0 := b0.isLt
  have h1 := b1.isLt
  have e : (b0.val <<< 16) ||| (b1.val <<< 8) = b0.val * 65536 + b1.val * 256 := by
    have := pack3 b0.val b1.val 0 h1 (by norm_num)
    simpa using this
  simp only [quantumBytes, List.getD_cons_zero, List.getD_cons_succ, List.length_cons,
    List.length_nil, List.getD_nil, and_63, shr, e]
  rw [pack4 _ _ _ _ (Nat.mod_lt _ (by norm_num)) (Nat.mod_lt _ (by norm_num)) (by norm_num)]
  simp only [toByte, shr]
  norm_num
  refine ⟨Fin.ext ?_, Fin.ext ?_⟩ <;> simp only [] <;> omega

/-- The six-bit values of a final block of one byte decode to that byte. -/
theorem quantum_one (b0 : Byte) :
    quantumBytes [(b0.val <<< 16) >>> 18 &&& 0x3F, (b0.val <<< 16) >>> 12 &&& 0x3F] = [b0] := by
  have h0 := b0.isLt
  have e : b0.val <<< 16 = b0.val * 65536 := Nat.shiftLeft_eq b0.val 16
  have z : (0 : Nat) <<< 6 = 0 := by decide
  simp only [quantumBytes, List.getD_cons_zero, List.getD_cons_succ, List.length_cons,
    List.length_nil, List.getD_nil, and_63, shr, e]
  rw [pack4 _ _ _ _ (Nat.mod_lt _ (by norm_num)) (by norm_num) (by norm_num)]
  simp only [toByte, shr]
  norm_num
  refine Fin.ext ?_
  simp only []
  omega

/-- Decoding four characters of the alphabet gives the bytes of their quantum, followed by the
decoding of the rest. -/
theorem decodeFrom_group (s0 s1 s2 s3 : Nat) (h0 : s0 < 64) (h1 : s1 < 64) (h2 : s2 < 64)
    (h3 : s3 < 64) (tl : List Char) :
    URLEncoding.decodeFrom (URLEncoding.encodeAt s0 :: URLEncoding.encodeAt s1 ::
      URLEncoding.encodeAt s2 :: URLEncoding.encodeAt s3 :: tl) [] =
      (URLEncoding.decodeFrom tl []).map (fun r => quantumBytes [s0, s1, s2, s3] ++ r) := by
  simp [Encoding.decodeFrom, decodeMap_encodeAt _ h0, decodeMap_encodeAt _ h1,
    decodeMap_encodeAt _ h2, decodeMap_encodeAt _ h3]

/-- The padding character of `URLEncoding`. -/
theorem URLEncoding_padChar : URLEncoding.padChar = some '=' := rfl

/-- Decoding a final block of three characters and one padding character. -/
theorem decodeFrom_three (s0 s1 s2 : Nat) (h0 : s0 < 64) (h1 : s1 < 64) (h2 : s2 < 64) :
    URLEncoding.decodeFrom [URLEncoding.encodeAt s0, URLEncoding.encodeAt s1,
      URLEncoding.encodeAt s2, '='] [] = some (quantumBytes [s0, s1, s2]) := by
  simp [Encoding.decodeFrom, decodeMap_encodeAt _ h0, decodeMap_encodeAt _ h1,
    decodeMap_encodeAt _ h2, decodeMap_pad, skipNewlines, URLEncoding_padChar]

/-- Decoding a final block of two characters and two padding characters. -/
theorem decodeFrom_two (s0 s1 : Nat) (h0 : s0 < 64) (h1 : s1 < 64) :
    URLEncoding.decodeFrom [URLEncoding.encodeAt s0, URLEncoding.encodeAt s1, '=', '='] [] =
      some (quantumBytes [s0, s1]) := by
  simp [Encoding.decodeFrom, decodeMap_encodeAt _ h0, decodeMap_encodeAt _ h1,
    decodeMap_pad, skipNewlines, URLEncoding_padChar]

/-- Decoding with `URLEncoding` the unpadded encoding of `b`, padded again to a multiple of
four characters, gives `b`. -/
theorem decodeFrom_Encode (b : Bytes) :
    URLEncoding.decodeFrom (RawURLEncoding.Encode b ++ segPadding (RawURLEncoding.Encode b).length)
      [] = some b := by
  induction b using Encoding.Encode.induct RawURLEncoding with
  | case1 b0 b1 b2 rest ih =>
    have hl : (RawURLEncoding.Encode (b0 :: b1 :: b2 :: rest)).length =
        (RawURLEncoding.Encode rest).length + 4 := by simp [Encoding.Encode]
    have hp : segPadding ((RawURLEncoding.Encode rest).length + 4) =
        segPadding (RawURLEncoding.Encode rest).length := by simp [segPadding]
    rw [hl, hp]
    simp only [Encoding.Encode, raw_encodeAt, List.cons_append]
    rw [decodeFrom_group _ _ _ _ (and_63_lt _) (and_63_lt _) (and_63_lt _) (and_63_lt _), ih,
      quantum_full]
    rfl
  | case2 b0 b1 =>
    simp only [Encoding.Encode, raw_encodeAt, Encoding.padding, RawURLEncoding, URLEncoding,
      segPadding, List.length_cons, List.length_nil, List.append_nil]
    have := decodeFrom_three _ _ _ (and_63_lt ((b0.val <<< 16 ||| b1.val <<< 8) >>> 18))
      (and_63_lt ((b0.val <<< 16 ||| b1.val <<< 8) >>> 12))
      (and_63_lt ((b0.val <<< 16 ||| b1.val <<< 8) >>> 6))
    rw [quantum_two] at this
    simpa [URLEncoding] using this
  | case3 b0 =>
    simp only [Encoding.Encode, raw_encodeAt, Encoding.padding, RawURLEncoding, URLEncoding,
      segPadding, List.length_cons, List.length_nil, List.append_nil]
    have := decodeFrom_two _ _ (and_63_lt ((b0.val <<< 16) >>> 18))
      (and_63_lt ((b0.val <<< 16) >>> 12))
    rw [quantum_one] at this
    simpa [URLEncoding] using this
  | case4 => simp [Encoding.Encode, segPadding, Encoding.decodeFrom]

/-- The function `jwt.DecodeSegment` inverts `base64.RawURLEncoding.EncodeToString`. -/
theorem DecodeSegment_EncodeToString (b : Bytes) :
    DecodeSegment (RawURLEncoding.EncodeToString b) = some b := by
  have h := decodeFrom_Encode b
  unfold segPadding at h
  unfold DecodeSegment Encoding.DecodeString Encoding.EncodeToString
  have hlen : (String.mk (RawURLEncoding.Encode b)).length = (RawURLEncoding.Encode b).length :=
    rfl
  simp only [hlen]
  split
  · next hpos =>
    rw [if_pos hpos] at h
    simpa [String.data_append] using h
  · next hneg =>
    rw [if_neg hneg] at h
    simpa using h

/-- The number of characters `RawURLEncoding.Encode` writes. -/
theorem Encode_length (b : Bytes) : (RawURLEncoding.Encode b).length = (4 * b.length + 2) / 3 := by
  induction b using Encoding.Encode.induct RawURLEncoding with
  | case1 b0 b1 b2 rest ih =>
    simp only [Encoding.Encode, List.length_cons, ih]
    omega
  | case2 b0 b1 => simp [Encoding.Encode, Encoding.padding, RawURLEncoding]
  | case3 b0 => simp [Encoding.Encode, Encoding.padding, RawURLEncoding]
  | case4 => simp [Encoding.Encode]

/-- Every character `RawURLEncoding.Encode` writes is a character of `encodeURL`. -/
theorem Encode_alphabet (b : Bytes) : ∀ c ∈ RawURLEncoding.Encode b, c ∈ encodeURL.data := by
  induction b using Encoding.Encode.induct RawURLEncoding with
  | case1 b0 b1 b2 rest ih =>
    intro c hc
    simp only [Encoding.Encode, raw_encodeAt, List.mem_cons] at hc
    rcases hc with h | h | h | h | h
    · rw [h]; exact encodeAt_mem _ (and_63_lt _)
    · rw [h]; exact encodeAt_mem _ (and_63_lt _)
    · rw [h]; exact encodeAt_mem _ (and_63_lt _)
    · rw [h]; exact encodeAt_mem _ (and_63_lt _)
    · exact ih c h
  | case2 b0 b1 =>
    intro c hc
    have hp : RawURLEncoding.padding 1 = [] := rfl
    simp only [Encoding.Encode, raw_encodeAt, hp, List.append_nil, List.mem_cons,
      List.mem_singleton, List.not_mem_nil, or_false] at hc
    rcases hc with h | h | h
    · rw [h]; exact encodeAt_mem _ (and_63_lt _)
    · rw [h]; exact encodeAt_mem _ (and_63_lt _)
    · rw [h]; exact encodeAt_mem _ (and_63_lt _)
  | case3 b0 =>
    intro c hc
    have hp : RawURLEncoding.padding 2 = [] := rfl
    simp only [Encoding.Encode, raw_encodeAt, hp, List.append_nil, List.mem_cons,
      List.mem_singleton, List.not_mem_nil, or_false] at hc
    rcases hc with h | h
    · rw [h]; exact encodeAt_mem _ (and_63_lt _)
    · rw [h]; exact encodeAt_mem _ (and_63_lt _)
  | case4 =>
    intro c hc
    simp [Encoding.Encode] at hc

/-- The character `=` is not in the alphabet. -/
theorem pad_not_in_alphabet : '=' ∉ encodeURL.data := by decide

/-- The method `EncodedLen` of `RawURLEncoding` is the ceiling of `4 * n / 3`. -/
theorem EncodedLen_raw (n : Nat) : RawURLEncoding.EncodedLen n = (4 * n + 2) / 3 := by
  simp only [Encoding.EncodedLen, RawURLEncoding]
  omega

/-! ## The device session of `Sign` and `NewTPMContext` -/

/-- The flush request `none` names no class. -/
theorem handleNames_none : handleNames "none" = [] := by decide

/-- With the flush request `none`, `loadTPM` only opens the device. -/
theorem loadTPM_none_ok {σ : Type} (hw : TPM σ) (device : String) (w : World σ) (rwc : RWC)
    (t : σ) (h : hw.OpenTPM device w.tpm = (.ok rwc, t)) :
    loadTPM hw device "none" w =
      ((some rwc, none), { w with tpm := t }.emit (.openTPM device)) := by
  simp [loadTPM, h, handleNames_none, flushClasses]

/-- With the flush request `none`, a failed `OpenTPM` makes `loadTPM` return the nil session
and the wrapped error. -/
theorem loadTPM_none_fail {σ : Type} (hw : TPM σ) (device : String) (w : World σ) (err : Error)
    (t : σ) (h : hw.OpenTPM device w.tpm = (.fail err, t)) :
    loadTPM hw device "none" w =
      ((none, some (.cantOpenTPM device err)), { w with tpm := t }.emit (.openTPM device)) := by
  simp [loadTPM, h]

/-- C3: for every signing string and every key argument that is not a `context.Context`,
`Sign` returns the empty string with `jwt.ErrInvalidKey`, and the process state, the trace of
device calls included, is the one before the call: the device is not opened and no command is
issued. -/
theorem Sign_invalid_key {σ : Type} (hw : TPM σ) (s : Ptr) (signingString : Bytes) (key : Any)
    (w : World σ) (hkey : ∀ ctx : Context, key ≠ .context ctx) :
    Sign hw s signingString key w = (.returned ("", some .ErrInvalidKey), w) := by
  cases key with
  | context c => exact absurd rfl (hkey c)
  | nil => rfl
  | rsaPublicKey k => rfl
  | ecdsaPublicKey k => rfl
  | bytes b => rfl
  | str x => rfl

/-- C3 on the simulated device, for a key that is a string. -/
theorem Sign_invalid_key_witness :
    (∀ ctx : Context, Any.str "secret" ≠ .context ctx) ∧
    Sign simTPM 0 hello (.str "secret") (init (startWorld simDevice [exampleConfig])) =
      (.returned ("", some .ErrInvalidKey), init (startWorld simDevice [exampleConfig])) :=
  ⟨(by intro ctx h; cases h),
    Sign_invalid_key simTPM 0 hello (.str "secret") (init (startWorld simDevice [exampleConfig]))
      (by intro ctx h; cases h)⟩

/-- C4: for every signing string and every context whose value under the carrier key
`tpmConfigKey{}` is not a `*TPMConfig` (nothing stored, or a value of another type), `Sign`
returns the empty string with `errMissingConfig`, and the process state, the trace of device
calls included, is the one before the call: the device is not opened. -/
theorem Sign_missing_config {σ : Type} (hw : TPM σ) (s : Ptr) (signingString : Bytes)
    (ctx : Context) (w : World σ) (hctx : ∀ p : Option Ptr, ctx.Value .tpmConfigKey ≠ .tpmConfig p) :
    Sign hw s signingString (.context ctx) w = (.returned ("", some .errMissingConfig), w) := by
  have h : TPMFromContext ctx = (none, false) := by
    unfold TPMFromContext
    cases hv : ctx.Value .tpmConfigKey with
    | tpmConfig p => exact absurd hv (hctx p)
    | nil => rfl
    | str x => rfl
    | int n => rfl
  simp [Sign, h]

/-- C4 on the simulated device, for a context that stores an integer under the carrier key. -/
theorem Sign_missing_config_witness :
    (∀ p : Option Ptr,
      (Context.withValue (.withValue .background (.other "user") (.str "alice"))
        .tpmConfigKey (.int 5)).Value .tpmConfigKey ≠ .tpmConfig p) ∧
    Sign simTPM 0 hello
        (.context (.withValue (.withValue .background (.other "user") (.str "alice"))
          .tpmConfigKey (.int 5)))
        (init (startWorld simDevice [exampleConfig])) =
      (.returned ("", some .errMissingConfig), init (startWorld simDevice [exampleConfig])) :=
  ⟨(by intro p h; simp [Context.Value] at h),
    Sign_missing_config simTPM 0 hello _ _ (by intro p h; simp [Context.Value] at h)⟩


/-- The run of `Sign` on a context that carries a configuration when the device does not
open: the statement `defer rwc.Close()` of the error branch panics on the nil `rwc`. -/
theorem Sign_open_fail {σ : Type} (hw : TPM σ) (s : Ptr) (signingString : Bytes) (ctx : Context)
    (w : World σ) (p : Ptr) (config : TPMConfig) (err : Error) (t1 : σ)
    (hctx : TPMFromContext ctx = (some p, true)) (hcfg : w.heap[p]? = some config)
    (hopen : hw.OpenTPM config.TPMDevice w.tpm = (.fail err, t1)) :
    Sign hw s signingString (.context ctx) w =
      (.panicked, { w with tpm := t1 }.emit (.openTPM config.TPMDevice)) := by
  simp [Sign, hctx, hcfg, loadTPM_none_fail hw _ w err t1 hopen]

/-- The run of `Sign` on a context that carries a configuration when the device opens. -/
theorem Sign_opened {σ : Type} (hw : TPM σ) (s : Ptr) (signingString : Bytes) (ctx : Context)
    (w : World σ) (p : Ptr) (config : TPMConfig) (rwc : RWC) (t1 : σ)
    (hctx : TPMFromContext ctx = (some p, true)) (hcfg : w.heap[p]? = some config)
    (hopen : hw.OpenTPM config.TPMDevice w.tpm = (.ok rwc, t1)) :
    Sign hw s signingString (.context ctx) w =
      match hw.NewKey rwc HandleOwner config.KeyTemplate t1 with
      | (.fail err, t2) =>
        (.returned ("", some err), w.after (hw.Close rwc t2).2
          [.openTPM config.TPMDevice, .newKey rwc HandleOwner config.KeyTemplate, .close rwc])
      | (.ok kk, t2) =>
        match hw.SignData kk signingString t2 with
        | (.fail err, t3) =>
          (.returned ("", some (.failedToSign err)), w.after (hw.Close rwc (hw.KeyClose kk t3)).2
            [.openTPM config.TPMDevice, .newKey rwc HandleOwner config.KeyTemplate,
              .signData kk signingString, .keyClose kk, .close rwc])
        | (.ok signedBytes, t3) =>
          (.returned (RawURLEncoding.EncodeToString signedBytes, none),
            w.after (hw.Close rwc (hw.KeyClose kk t3)).2
              [.openTPM config.TPMDevice, .newKey rwc HandleOwner config.KeyTemplate,
                .signData kk signingString, .keyClose kk, .close rwc]) := by
  simp only [Sign, hctx, hcfg, loadTPM_none_ok hw _ w rwc t1 hopen, loadKey, World.emit]
  rcases hk : hw.NewKey rwc HandleOwner config.KeyTemplate t1 with ⟨r, t2⟩
  cases r with
  | fail e => simp [runDeferred, Deferred.run, World.emit, World.after]
  | ok kk =>
    simp only []
    rcases hs : hw.SignData kk signingString t2 with ⟨r3, t3⟩
    cases r3 with
    | fail e => simp [runDeferred, Deferred.run, World.emit, World.after]
    | ok b => simp [runDeferred, Deferred.run, World.emit, World.after]


/-- C5: evaluation of `Sign` at a context whose configuration names a device that cannot be
opened. The call does not return the wrapped open failure: it panics after the failed
`OpenTPM`, the only event of the run, because the error branch executes `defer rwc.Close()`
on the nil `rwc` that `loadTPM` returns beside its error. -/
theorem Sign_open_failure_panics :
    Sign simTPM 0 hello (.context (contextOf 0)) (init (startWorld simDevice [absentDeviceConfig])) =
      (.panicked, (init (startWorld simDevice [absentDeviceConfig])).emit (.openTPM "/dev/tpm9")) ∧
    (loadTPM simTPM "/dev/tpm9" "none" (init (startWorld simDevice [absentDeviceConfig]))).1 =
      (none, some (.cantOpenTPM "/dev/tpm9" (.external "no such file or directory"))) := by
  constructor
  · exact Sign_open_fail simTPM 0 hello (contextOf 0) _ 0 absentDeviceConfig
      (.external "no such file or directory") simDevice rfl rfl rfl
  · rfl

/-- C6: in every call of `Sign` whose device session was opened, `Sign` returns, the last
event before it returns closes that session, and the releases of the call are, in order: the
close of the key and then the close of the session when the key was loaded (whether signing
then fails or succeeds), and the close of the session alone when the key failed to load. Each
is released exactly once, the key before the session, and a key that did not load is never
closed. -/
theorem Sign_releases {σ : Type} (hw : TPM σ) (s : Ptr) (signingString : Bytes) (ctx : Context)
    (w : World σ) (p : Ptr) (config : TPMConfig) (rwc : RWC) (t1 : σ)
    (hctx : TPMFromContext ctx = (some p, true)) (hcfg : w.heap[p]? = some config)
    (hopen : hw.OpenTPM config.TPMDevice w.tpm = (.ok rwc, t1)) :
    ∃ r es, (Sign hw s signingString (.context ctx) w).1 = .returned r ∧
      (Sign hw s signingString (.context ctx) w).2.trace =
        w.trace ++ .openTPM config.TPMDevice :: es ∧
      es.getLast? = some (.close rwc) ∧
      releases es =
        match (hw.NewKey rwc HandleOwner config.KeyTemplate t1).1 with
        | .ok kk => [.keyClose kk, .close rwc]
        | .fail _ => [.close rwc] := by
  rw [Sign_opened hw s signingString ctx w p config rwc t1 hctx hcfg hopen]
  rcases hk : hw.NewKey rwc HandleOwner config.KeyTemplate t1 with ⟨r, t2⟩
  cases r with
  | fail e =>
    exact ⟨_, [.newKey rwc HandleOwner config.KeyTemplate, .close rwc], rfl, rfl, rfl, rfl⟩
  | ok kk =>
    simp only []
    rcases hs : hw.SignData kk signingString t2 with ⟨r3, t3⟩
    cases r3 with
    | fail e =>
      exact ⟨_, [.newKey rwc HandleOwner config.KeyTemplate, .signData kk signingString,
        .keyClose kk, .close rwc], rfl, rfl, rfl, rfl⟩
    | ok b =>
      exact ⟨_, [.newKey rwc HandleOwner config.KeyTemplate, .signData kk signingString,
        .keyClose kk, .close rwc], rfl, rfl, rfl, rfl⟩

/-- C6 on the simulated device, for the configuration of the scenario. -/
theorem Sign_releases_witness :
    TPMFromContext (contextOf 0) = (some 0, true) ∧
    (init (startWorld simDevice [exampleConfig])).heap[0]? = some exampleConfig ∧
    simTPM.OpenTPM exampleConfig.TPMDevice (init (startWorld simDevice [exampleConfig])).tpm =
      (.ok 3, simDevice) ∧
    ∃ r es, (Sign simTPM 0 hello (.context (contextOf 0))
        (init (startWorld simDevice [exampleConfig]))).1 = .returned r ∧
      (Sign simTPM 0 hello (.context (contextOf 0))
        (init (startWorld simDevice [exampleConfig]))).2.trace =
        (init (startWorld simDevice [exampleConfig])).trace ++
          .openTPM exampleConfig.TPMDevice :: es ∧
      es.getLast? = some (.close 3) ∧
      releases es =
        match (simTPM.NewKey 3 HandleOwner exampleConfig.KeyTemplate simDevice).1 with
        | .ok kk => [.keyClose kk, .close 3]
        | .fail _ => [.close 3] :=
  ⟨rfl, rfl, rfl,
    Sign_releases simTPM 0 hello (contextOf 0) (init (startWorld simDevice [exampleConfig])) 0
      exampleConfig 3 simDevice rfl rfl rfl⟩

/-- C1: for every signing string and every context that carries a configuration, when the
device opens, the key loads and `SignData` returns the bytes `b` for the bytes of the signing
string, `Sign` returns the string `base64.RawURLEncoding.EncodeToString(b)` and a nil error.
That string has no `=`, consists of characters of the URL-safe alphabet, and has
`⌈4 * len(b) / 3⌉` characters, which is 342 for a signature of 256 bytes. -/
theorem Sign_returns_raw_base64url {σ : Type} (hw : TPM σ) (s : Ptr) (signingString : Bytes)
    (ctx : Context) (w : World σ) (p : Ptr) (config : TPMConfig) (rwc : RWC) (kk : Key) (b : Bytes)
    (t1 t2 t3 : σ)
    (hctx : TPMFromContext ctx = (some p, true)) (hcfg : w.heap[p]? = some config)
    (hopen : hw.OpenTPM config.TPMDevice w.tpm = (.ok rwc, t1))
    (hkey : hw.NewKey rwc HandleOwner config.KeyTemplate t1 = (.ok kk, t2))
    (hsign : hw.SignData kk signingString t2 = (.ok b, t3)) :
    (Sign hw s signingString (.context ctx) w).1 =
        .returned (RawURLEncoding.EncodeToString b, none) ∧
      '=' ∉ (RawURLEncoding.EncodeToString b).data ∧
      (∀ c ∈ (RawURLEncoding.EncodeToString b).data, c ∈ encodeURL.data) ∧
      (RawURLEncoding.EncodeToString b).length = (4 * b.length + 2) / 3 ∧
      (b.length = 256 → (RawURLEncoding.EncodeToString b).length = 342) := by
  have hlen : (RawURLEncoding.EncodeToString b).length = (4 * b.length + 2) / 3 :=
    Encode_length b
  refine ⟨?_, ?_, Encode_alphabet b, hlen, ?_⟩
  · rw [Sign_opened hw s signingString ctx w p config rwc t1 hctx hcfg hopen, hkey]
    simp only [hsign]
  · intro h
    exact pad_not_in_alphabet (Encode_alphabet b _ h)
  · intro h
    rw [hlen, h]

/-- C1 on the simulated device, for the configuration of the scenario and a signature of 256
bytes. -/
theorem Sign_returns_raw_base64url_witness :
    TPMFromContext (contextOf 0) = (some 0, true) ∧
    (init (startWorld simDevice [exampleConfig])).heap[0]? = some exampleConfig ∧
    simTPM.OpenTPM exampleConfig.TPMDevice (init (startWorld simDevice [exampleConfig])).tpm =
      (.ok 3, simDevice) ∧
    simTPM.NewKey 3 HandleOwner exampleConfig.KeyTemplate simDevice =
      (.ok { handle := 0x80000000, pubKey := .rsaPublicKey { N := 15, E := 65537 },
             name := [toByte 7] }, simDevice) ∧
    simTPM.SignData
        { handle := 0x80000000, pubKey := .rsaPublicKey { N := 15, E := 65537 },
          name := [toByte 7] } hello simDevice =
      (.ok (toySignature 15 hello), simDevice) ∧
    (toySignature 15 hello).length = 256 ∧
    (Sign simTPM 0 hello (.context (contextOf 0)) (init (startWorld simDevice [exampleConfig]))).1 =
        .returned (RawURLEncoding.EncodeToString (toySignature 15 hello), none) ∧
      '=' ∉ (RawURLEncoding.EncodeToString (toySignature 15 hello)).data ∧
      (∀ c ∈ (RawURLEncoding.EncodeToString (toySignature 15 hello)).data, c ∈ encodeURL.data) ∧
      (RawURLEncoding.EncodeToString (toySignature 15 hello)).length =
        (4 * (toySignature 15 hello).length + 2) / 3 ∧
      ((toySignature 15 hello).length = 256 →
        (RawURLEncoding.EncodeToString (toySignature 15 hello)).length = 342) :=
  ⟨rfl, rfl, rfl, rfl, rfl, by simp [toySignature],
    Sign_returns_raw_base64url simTPM 0 hello (contextOf 0)
      (init (startWorld simDevice [exampleConfig])) 0 exampleConfig 3
      { handle := 0x80000000, pubKey := .rsaPublicKey { N := 15, E := 65537 }, name := [toByte 7] }
      (toySignature 15 hello) simDevice simDevice simDevice rfl rfl rfl rfl rfl⟩

/-! ## `NewTPMContext` -/

/-- The run of `NewTPMContext` when the device does not open. -/
theorem NewTPMContext_open_fail {σ : Type} (hw : TPM σ) (parent : Option Context) (w : World σ)
    (p : Ptr) (cfg : TPMConfig) (err : Error) (t1 : σ) (hcfg : w.heap[p]? = some cfg)
    (hopen : hw.OpenTPM cfg.TPMDevice w.tpm = (.fail err, t1)) :
    NewTPMContext hw parent (some p) w =
      (.returned (none, some (.loadingTPM (.cantOpenTPM cfg.TPMDevice err))),
        w.after t1 [.openTPM cfg.TPMDevice]) := by
  simp [NewTPMContext, hcfg, loadTPM_none_fail hw _ w err t1 hopen, World.emit, World.after]

/-- The run of `NewTPMContext` when the device opens: a key the device returns is cached in
the configuration, also when the call then panics on a nil parent. -/
theorem NewTPMContext_opened {σ : Type} (hw : TPM σ) (parent : Option Context) (w : World σ)
    (p : Ptr) (cfg : TPMConfig) (rwc : RWC) (t1 : σ) (hcfg : w.heap[p]? = some cfg)
    (hopen : hw.OpenTPM cfg.TPMDevice w.tpm = (.ok rwc, t1)) :
    NewTPMContext hw parent (some p) w =
      match hw.NewKey rwc HandleOwner cfg.KeyTemplate t1 with
      | (.fail err, t2) =>
        (.returned (none, some err), w.after (hw.Close rwc t2).2
          [.openTPM cfg.TPMDevice, .newKey rwc HandleOwner cfg.KeyTemplate, .close rwc])
      | (.ok k, t2) =>
        ((match parent with
          | none => .panicked
          | some ctx =>
            .returned (some (.withValue ctx .tpmConfigKey (.tpmConfig (some p))), none)),
          { w.after (hw.Close rwc (hw.KeyClose k t2)).2
              [.openTPM cfg.TPMDevice, .newKey rwc HandleOwner cfg.KeyTemplate, .printf k.name,
                .keyClose k, .close rwc] with
            heap := w.heap.set p { cfg with publicKeyFromTPM := k.pubKey } }) := by
  simp only [NewTPMContext, hcfg, loadTPM_none_ok hw _ w rwc t1 hopen, World.emit]
  rcases hk : hw.NewKey rwc HandleOwner cfg.KeyTemplate t1 with ⟨r, t2⟩
  cases r with
  | fail e => simp [runDeferred, Deferred.run, World.emit, World.after]
  | ok k => cases parent <;> simp [runDeferred, Deferred.run, World.emit, World.after]

/-- A successful `NewTPMContext`, taken apart: the configuration it was given, the session
and the key of the call, the context it returns and the world it leaves. -/
theorem NewTPMContext_success {σ : Type} (hw : TPM σ) (parent : Option Context)
    (val : Option Ptr) (w : World σ) (ctx : Option Context)
    (hok : (NewTPMContext hw parent val w).1 = .returned (ctx, none)) :
    ∃ p cfg rwc k t1 t2 parentCtx, val = some p ∧ w.heap[p]? = some cfg ∧
      hw.OpenTPM cfg.TPMDevice w.tpm = (.ok rwc, t1) ∧
      hw.NewKey rwc HandleOwner cfg.KeyTemplate t1 = (.ok k, t2) ∧
      parent = some parentCtx ∧
      ctx = some (.withValue parentCtx .tpmConfigKey (.tpmConfig (some p))) ∧
      (NewTPMContext hw parent val w).2 =
        { w.after (hw.Close rwc (hw.KeyClose k t2)).2
            [.openTPM cfg.TPMDevice, .newKey rwc HandleOwner cfg.KeyTemplate, .printf k.name,
              .keyClose k, .close rwc] with
          heap := w.heap.set p { cfg with publicKeyFromTPM := k.pubKey } } := by
  cases val with
  | none => simp [NewTPMContext] at hok
  | some p =>
    cases hcfg : w.heap[p]? with
    | none => simp [NewTPMContext, hcfg] at hok
    | some cfg =>
      rcases hopen : hw.OpenTPM cfg.TPMDevice w.tpm with ⟨r, t1⟩
      cases r with
      | fail e =>
        rw [NewTPMContext_open_fail hw parent w p cfg e t1 hcfg hopen] at hok
        simp at hok
      | ok rwc =>
        have hrun := NewTPMContext_opened hw parent w p cfg rwc t1 hcfg hopen
        rcases hk : hw.NewKey rwc HandleOwner cfg.KeyTemplate t1 with ⟨r2, t2⟩
        rw [hk] at hrun
        cases r2 with
        | fail e =>
          rw [hrun] at hok
          simp at hok
        | ok k =>
          simp only [] at hrun
          rw [hrun] at hok ⊢
          cases parent with
          | none => simp at hok
          | some parentCtx =>
            simp only [Outcome.returned.injEq, Prod.mk.injEq, and_true] at hok
            exact ⟨p, cfg, rwc, k, t1, t2, parentCtx, rfl, hcfg, hopen, hk, rfl, hok.symm, rfl⟩

/-- The function `TPMFromContext` finds nothing in a context in which no configuration was
stored. -/
theorem TPMFromContext_not_stored (c : Context) (h : c.storesConfig = false) :
    TPMFromContext c = (none, false) := by
  have hv : ∀ q, c.Value .tpmConfigKey ≠ .tpmConfig q := by
    induction c with
    | background => intro q hq; simp [Context.Value] at hq
    | withValue parent k v ih =>
      simp only [Context.storesConfig, Bool.or_eq_false_iff, Bool.and_eq_false_iff] at h
      intro q hq
      simp only [Context.Value] at hq
      by_cases hk : k = .tpmConfigKey
      · rw [if_pos hk] at hq
        rcases h.1 with h1 | h1
        · simp [hk] at h1
        · rw [hq] at h1; simp at h1
      · rw [if_neg hk] at hq
        exact ih h.2 q hq
  unfold TPMFromContext
  cases hc : c.Value .tpmConfigKey with
  | tpmConfig q => exact absurd hc (hv q)
  | nil => rfl
  | str x => rfl
  | int n => rfl

/-- The events of a call of `Sign` whose session opens contain the request for the key. -/
theorem Sign_requests_key {σ : Type} (hw : TPM σ) (s : Ptr) (signingString : Bytes)
    (ctx : Context) (w : World σ) (p : Ptr) (config : TPMConfig) (rwc : RWC) (t1 : σ)
    (hctx : TPMFromContext ctx = (some p, true)) (hcfg : w.heap[p]? = some config)
    (hopen : hw.OpenTPM config.TPMDevice w.tpm = (.ok rwc, t1)) :
    Event.newKey rwc HandleOwner config.KeyTemplate ∈
      (Sign hw s signingString (.context ctx) w).2.trace := by
  rw [Sign_opened hw s signingString ctx w p config rwc t1 hctx hcfg hopen]
  rcases hk : hw.NewKey rwc HandleOwner config.KeyTemplate t1 with ⟨r, t2⟩
  cases r with
  | fail e => simp [World.after]
  | ok kk =>
    simp only []
    rcases hs : hw.SignData kk signingString t2 with ⟨r3, t3⟩
    cases r3 with
    | fail e => simp [World.after]
    | ok b => simp [World.after]

/-- C7: when `NewTPMContext` succeeds on a configuration, `TPMFromContext` on the context it
returns yields that configuration with `ok = true`; the public key cached in the
configuration is the public key of the key that `client.NewKey` returned for the owner
hierarchy and the template of the configuration; a later `Sign` on that context whose session
opens issues `client.NewKey` for the same hierarchy and template. In every context in which
no configuration was stored, `TPMFromContext` yields `ok = false`. -/
theorem NewTPMContext_TPMFromContext {σ : Type} (hw : TPM σ) (parent : Option Context)
    (val : Option Ptr) (w : World σ) (ctx : Context)
    (hok : (NewTPMContext hw parent val w).1 = .returned (some ctx, none)) :
    (∃ p cfg rwc k t1 t2, val = some p ∧ w.heap[p]? = some cfg ∧
      hw.OpenTPM cfg.TPMDevice w.tpm = (.ok rwc, t1) ∧
      hw.NewKey rwc HandleOwner cfg.KeyTemplate t1 = (.ok k, t2) ∧
      TPMFromContext ctx = (some p, true) ∧
      (NewTPMContext hw parent val w).2.heap[p]? =
        some { cfg with publicKeyFromTPM := k.pubKey } ∧
      ∀ (s : Ptr) (signingString : Bytes) (rwc2 : RWC) (t : σ),
        hw.OpenTPM cfg.TPMDevice (NewTPMContext hw parent val w).2.tpm = (.ok rwc2, t) →
        Event.newKey rwc2 HandleOwner cfg.KeyTemplate ∈
          (Sign hw s signingString (.context ctx) (NewTPMContext hw parent val w).2).2.trace) ∧
    ∀ c : Context, c.storesConfig = false → TPMFromContext c = (none, false) := by
  refine ⟨?_, TPMFromContext_not_stored⟩
  obtain ⟨p, cfg, rwc, k, t1, t2, parentCtx, hval, hcfg, hopen, hk, -, hctx, hw2⟩ :=
    NewTPMContext_success hw parent val w (some ctx) hok
  have hlt : p < w.heap.length := (List.getElem?_eq_some.mp hcfg).1
  have hfrom : TPMFromContext ctx = (some p, true) := by
    rw [Option.some.inj hctx]
    simp [TPMFromContext, Context.Value]
  have hheap : (NewTPMContext hw parent val w).2.heap[p]? =
      some { cfg with publicKeyFromTPM := k.pubKey } := by
    rw [hw2]
    exact List.getElem?_set_self hlt
  refine ⟨p, cfg, rwc, k, t1, t2, hval, hcfg, hopen, hk, hfrom, hheap, ?_⟩
  intro s signingString rwc2 t hopen2
  exact Sign_requests_key hw s signingString ctx _ p { cfg with publicKeyFromTPM := k.pubKey }
    rwc2 t hfrom hheap hopen2

/-- C7 on the simulated device, for the configuration of the scenario. -/
theorem NewTPMContext_TPMFromContext_witness :
    (NewTPMContext simTPM (some .background) (some 0) rsaStart).1 =
        .returned (some (contextOf 0), none) ∧
    ((∃ p cfg rwc k t1 t2, some 0 = some p ∧ rsaStart.heap[p]? = some cfg ∧
      simTPM.OpenTPM cfg.TPMDevice rsaStart.tpm = (.ok rwc, t1) ∧
      simTPM.NewKey rwc HandleOwner cfg.KeyTemplate t1 = (.ok k, t2) ∧
      TPMFromContext (contextOf 0) = (some p, true) ∧
      (NewTPMContext simTPM (some .background) (some 0) rsaStart).2.heap[p]? =
        some { cfg with publicKeyFromTPM := k.pubKey } ∧
      ∀ (s : Ptr) (signingString : Bytes) (rwc2 : RWC) (t : SimTPM),
        simTPM.OpenTPM cfg.TPMDevice (NewTPMContext simTPM (some .background) (some 0) rsaStart).2.tpm =
          (.ok rwc2, t) →
        Event.newKey rwc2 HandleOwner cfg.KeyTemplate ∈
          (Sign simTPM s signingString (.context (contextOf 0))
            (NewTPMContext simTPM (some .background) (some 0) rsaStart).2).2.trace) ∧
    ∀ c : Context, c.storesConfig = false → TPMFromContext c = (none, false)) :=
  ⟨rfl, NewTPMContext_TPMFromContext simTPM (some .background) (some 0) rsaStart (contextOf 0) rfl⟩

/-! ## `Verify` after `Sign` -/

/-- The method `Verify` of an adapter whose fallback is `jwt.SigningMethodRS256`, on the string
`Sign` returns for the signature bytes `b`: the segment decodes to `b` and the result is that
of the software verification of `b`. -/
theorem Verify_encoded {σ : Type} (crypto : Crypto) (sm : Ptr) (m : SigningMethodTPM)
    (signingString b : Bytes) (key : Any) (w : World σ) (hm : w.methods[sm]? = some m)
    (ho : m.override = some SigningMethodRS256) :
    Verify crypto sm signingString (RawURLEncoding.EncodeToString b) key w =
      .returned (rs256VerifyBytes crypto signingString b key) := by
  simp only [Verify, hm, ho, SigningMethodRSA.Verify, DecodeSegment_EncodeToString,
    rs256VerifyBytes, SigningMethodRS256]

/-- C2, as stated, fails: with a template that asks for an ECC signing key, `NewTPMContext`
succeeds and caches an ECDSA public key, `Sign` returns a signature for `hello`, and `Verify`
of that signature under the cached public key returns `jwt.ErrInvalidKeyType`, even with
primitives that accept every signature. -/
theorem Verify_fails_for_ecc_template :
    (NewTPMContext simTPM (some .background) (some 0) eccStart).1 =
        .returned (some (contextOf 0), none) ∧
      (Sign simTPM 0 hello (.context (contextOf 0)) eccMaterialized).1 =
        .returned ("MAYCAQECAQU", none) ∧
      TPMVerfiyKeyfunc .background 0 eccMaterialized =
        some (.ecdsaPublicKey { Curve := "P-256", X := 7, Y := 8 }) ∧
      Verify permissiveCrypto 0 hello "MAYCAQECAQU"
          (.ecdsaPublicKey { Curve := "P-256", X := 7, Y := 8 }) eccMaterialized =
        .returned (some .ErrInvalidKeyType) := by
  refine ⟨rfl, ?_, rfl, ?_⟩
  · decide
  · decide

/-- C2, amended: for every signing string and every context returned by a successful
`NewTPMContext`, when `Sign` on that context returns a signature and a nil error, the
signature is the unpadded base64url encoding of the bytes `b` that `SignData` of the loaded
key returned for the signing string, `jwt.DecodeSegment` decodes it back to exactly `b`, and
`Verify` of it under the cached public key of the configuration returns what the software
RS256 verification of `b` under that key returns (`jwt.ErrInvalidKeyType` when the cached key
is not an RSA public key); so it succeeds whenever the cached key is an RSA public key under
which `b` is a valid RS256 signature of the signing string. -/
theorem Verify_of_Sign {σ : Type} (crypto : Crypto) (hw : TPM σ) (parent : Option Context)
    (val : Option Ptr) (w : World σ) (ctx : Context) (sm : Ptr) (m : SigningMethodTPM)
    (signingString : Bytes) (sig : String)
    (hm : w.methods[sm]? = some m) (ho : m.override = some SigningMethodRS256)
    (hnew : (NewTPMContext hw parent val w).1 = .returned (some ctx, none))
    (hsign : (Sign hw sm signingString (.context ctx) (NewTPMContext hw parent val w).2).1 =
      .returned (sig, none)) :
    ∃ p cfg rwc kk b t1 t2 t3, val = some p ∧
      (NewTPMContext hw parent val w).2.heap[p]? = some cfg ∧
      hw.OpenTPM cfg.TPMDevice (NewTPMContext hw parent val w).2.tpm = (.ok rwc, t1) ∧
      hw.NewKey rwc HandleOwner cfg.KeyTemplate t1 = (.ok kk, t2) ∧
      hw.SignData kk signingString t2 = (.ok b, t3) ∧
      sig = RawURLEncoding.EncodeToString b ∧
      DecodeSegment sig = some b ∧
      Verify crypto sm signingString sig cfg.GetPublicKey
          (Sign hw sm signingString (.context ctx) (NewTPMContext hw parent val w).2).2 =
        .returned (rs256VerifyBytes crypto signingString b cfg.GetPublicKey) ∧
      (∀ rsaKey : RSAPublicKey, cfg.GetPublicKey = .rsaPublicKey rsaKey →
        crypto.Available .SHA256 = true →
        crypto.VerifyPKCS1v15 rsaKey .SHA256 (crypto.Sum .SHA256 signingString) b = none →
        Verify crypto sm signingString sig cfg.GetPublicKey
          (Sign hw sm signingString (.context ctx) (NewTPMContext hw parent val w).2).2 =
        .returned none) := by
  obtain ⟨p, cfg0, rwc0, k0, s1, s2, parentCtx, hval, hcfg0, -, -, -, hctx, hw2⟩ :=
    NewTPMContext_success hw parent val w (some ctx) hnew
  have hlt : p < w.heap.length := (List.getElem?_eq_some.mp hcfg0).1
  have hfrom : TPMFromContext ctx = (some p, true) := by
    rw [Option.some.inj hctx]
    simp [TPMFromContext, Context.Value]
  have hheap : (NewTPMContext hw parent val w).2.heap[p]? =
      some { cfg0 with publicKeyFromTPM := k0.pubKey } := by
    rw [hw2]
    exact List.getElem?_set_self hlt
  have hmeth : (NewTPMContext hw parent val w).2.methods = w.methods := by
    rw [hw2]
    rfl
  generalize (NewTPMContext hw parent val w).2 = w1 at hsign hheap hmeth ⊢
  generalize ({ cfg0 with publicKeyFromTPM := k0.pubKey } : TPMConfig) = cfg at hheap
  rcases hopen : hw.OpenTPM cfg.TPMDevice w1.tpm with ⟨r, t1⟩
  cases r with
  | fail e =>
    rw [Sign_open_fail hw sm signingString ctx w1 p cfg e t1 hfrom hheap hopen] at hsign
    simp at hsign
  | ok rwc =>
    have hrun := Sign_opened hw sm signingString ctx w1 p cfg rwc t1 hfrom hheap hopen
    rcases hk : hw.NewKey rwc HandleOwner cfg.KeyTemplate t1 with ⟨r2, t2⟩
    rw [hk] at hrun
    cases r2 with
    | fail e =>
      rw [hrun] at hsign
      simp at hsign
    | ok kk =>
      simp only [] at hrun
      rcases hs : hw.SignData kk signingString t2 with ⟨r3, t3⟩
      rw [hs] at hrun
      cases r3 with
      | fail e =>
        rw [hrun] at hsign
        simp at hsign
      | ok b =>
        simp only [] at hrun
        rw [hrun] at hsign ⊢
        simp only [Outcome.returned.injEq, Prod.mk.injEq, and_true] at hsign
        have hm1 : (w1.after (hw.Close rwc (hw.KeyClose kk t3)).2
            [.openTPM cfg.TPMDevice, .newKey rwc HandleOwner cfg.KeyTemplate,
              .signData kk signingString, .keyClose kk, .close rwc]).methods[sm]? = some m := by
          show w1.methods[sm]? = some m
          rw [hmeth]
          exact hm
        have hver := Verify_encoded crypto sm m signingString b cfg.GetPublicKey _ hm1 ho
        refine ⟨p, cfg, rwc, kk, b, t1, t2, t3, hval, hheap, hopen, hk, hs, hsign.symm, ?_, ?_, ?_⟩
        · rw [← hsign]
          exact DecodeSegment_EncodeToString b
        · rw [← hsign]
          exact hver
        · intro rsaKey hkey havail haccept
          rw [← hsign, hver, hkey]
          simp [rs256VerifyBytes, havail, haccept]

/-- C2, amended, on the simulated device with the toy primitives. -/
theorem Verify_of_Sign_witness :
    rsaStart.methods[0]? =
        some { alg := "TPMRS256", override := some SigningMethodRS256, hasher := .SHA256 } ∧
    (NewTPMContext simTPM (some .background) (some 0) rsaStart).1 =
        .returned (some (contextOf 0), none) ∧
    (Sign simTPM 0 hello (.context (contextOf 0))
        (NewTPMContext simTPM (some .background) (some 0) rsaStart).2).1 =
      .returned (RawURLEncoding.EncodeToString (toySignature 15 hello), none) ∧
    ∃ p cfg rwc kk b t1 t2 t3, some 0 = some p ∧
      (NewTPMContext simTPM (some .background) (some 0) rsaStart).2.heap[p]? = some cfg ∧
      simTPM.OpenTPM cfg.TPMDevice (NewTPMContext simTPM (some .background) (some 0) rsaStart).2.tpm =
        (.ok rwc, t1) ∧
      simTPM.NewKey rwc HandleOwner cfg.KeyTemplate t1 = (.ok kk, t2) ∧
      simTPM.SignData kk hello t2 = (.ok b, t3) ∧
      RawURLEncoding.EncodeToString (toySignature 15 hello) = RawURLEncoding.EncodeToString b ∧
      DecodeSegment (RawURLEncoding.EncodeToString (toySignature 15 hello)) = some b ∧
      Verify toyCrypto 0 hello (RawURLEncoding.EncodeToString (toySignature 15 hello))
          cfg.GetPublicKey
          (Sign simTPM 0 hello (.context (contextOf 0))
            (NewTPMContext simTPM (some .background) (some 0) rsaStart).2).2 =
        .returned (rs256VerifyBytes toyCrypto hello b cfg.GetPublicKey) ∧
      (∀ rsaKey : RSAPublicKey, cfg.GetPublicKey = .rsaPublicKey rsaKey →
        toyCrypto.Available .SHA256 = true →
        toyCrypto.VerifyPKCS1v15 rsaKey .SHA256 (toyCrypto.Sum .SHA256 hello) b = none →
        Verify toyCrypto 0 hello (RawURLEncoding.EncodeToString (toySignature 15 hello))
          cfg.GetPublicKey
          (Sign simTPM 0 hello (.context (contextOf 0))
            (NewTPMContext simTPM (some .background) (some 0) rsaStart).2).2 =
        .returned none) :=
  ⟨rfl, rfl, rfl,
    Verify_of_Sign toyCrypto simTPM (some .background) (some 0) rsaStart (contextOf 0) 0
      { alg := "TPMRS256", override := some SigningMethodRS256, hasher := .SHA256 } hello
      (RawURLEncoding.EncodeToString (toySignature 15 hello)) rfl rfl rfl rfl⟩

/-! ## The flush step of `loadTPM` -/

/-- The inner loop of `loadTPM`: it flushes the handles in order as long as the device
returns a nil error, and at the first flush for which the device returns an error it stops
with the error that names the handle. -/
theorem flushHandles_trace {σ : Type} (hw : TPM σ) (rwc : RWC) (hs : List Nat) (w : World σ) :
    (∀ w1, flushHandles hw rwc hs w = (none, w1) →
      w1.trace = w.trace ++ hs.map (fun handle => .flushContext rwc handle none)) ∧
    (∀ e w1, flushHandles hw rwc hs w = (some e, w1) →
      ∃ pre h post cause, hs = pre ++ h :: post ∧ e = .flushingHandle h cause ∧
        w1.trace = w.trace ++ (pre.map (fun handle => .flushContext rwc handle none) ++
          [.flushContext rwc h (some cause)])) := by
  induction hs generalizing w with
  | nil =>
    constructor
    · intro w1 h
      simp only [flushHandles, Prod.mk.injEq, true_and] at h
      simp [← h]
    · intro e w1 h
      simp [flushHandles] at h
  | cons a rest ih =>
    rcases hf : hw.FlushContext rwc a w.tpm with ⟨r, t⟩
    cases r with
    | some err =>
      constructor
      · intro w1 h
        simp [flushHandles, hf] at h
      · intro e w1 h
        simp only [flushHandles, hf, Prod.mk.injEq, Option.some.injEq] at h
        refine ⟨[], a, rest, err, rfl, h.1.symm, ?_⟩
        rw [← h.2]
        simp [World.emit]
    | none =>
      have ih2 := ih ({ w with tpm := t }.emit (.flushContext rwc a none))
      constructor
      · intro w1 h
        simp only [flushHandles, hf] at h
        rw [ih2.1 w1 h]
        simp [World.emit]
      · intro e w1 h
        simp only [flushHandles, hf] at h
        obtain ⟨pre, x, post, cause, hsplit, he, htr⟩ := ih2.2 e w1 h
        refine ⟨a :: pre, x, post, cause, by rw [hsplit]; rfl, he, ?_⟩
        rw [htr]
        simp [World.emit]

/-- The outer loop of `loadTPM`: without failure it runs the script of all classes; at the
first failure it stops. -/
theorem flushClasses_trace {σ : Type} (hw : TPM σ) (rwc : RWC) (cs : List HandleType)
    (w : World σ) :
    (∀ w1, flushClasses hw rwc cs w = (none, w1) →
      ∃ answers, answers.map Prod.fst = cs ∧ w1.trace = w.trace ++ flushScript rwc answers) ∧
    (∀ e w1, flushClasses hw rwc cs w = (some e, w1) →
      ∃ answers c later tail, cs = answers.map Prod.fst ++ c :: later ∧
        w1.trace = w.trace ++ (flushScript rwc answers ++ tail) ∧ failedStep rwc c e tail) := by
  induction cs generalizing w with
  | nil =>
    constructor
    · intro w1 h
      simp only [flushClasses, Prod.mk.injEq, true_and] at h
      exact ⟨[], rfl, by simp [← h, flushScript]⟩
    · intro e w1 h
      simp [flushClasses] at h
  | cons c rest ih =>
    rcases hh : hw.Handles rwc c w.tpm with ⟨r, t⟩
    cases r with
    | fail err =>
      constructor
      · intro w1 h
        simp [flushClasses, hh] at h
      · intro e w1 h
        simp only [flushClasses, hh, Prod.mk.injEq, Option.some.injEq] at h
        refine ⟨[], c, rest, [.handles rwc c (.fail err)], rfl, ?_, Or.inl ⟨err, h.1.symm, rfl⟩⟩
        rw [← h.2]
        simp [World.emit, flushScript]
    | ok handles =>
      have hfl := flushHandles_trace hw rwc handles
        ({ w with tpm := t }.emit (.handles rwc c (.ok handles)))
      rcases hf : flushHandles hw rwc handles
        ({ w with tpm := t }.emit (.handles rwc c (.ok handles))) with ⟨r2, w2⟩
      cases r2 with
      | some e2 =>
        constructor
        · intro w1 h
          simp [flushClasses, hh, hf] at h
        · intro e w1 h
          simp only [flushClasses, hh, hf, Prod.mk.injEq, Option.some.injEq] at h
          obtain ⟨pre, x, post, cause, hsplit, he, htr⟩ := hfl.2 e2 w2 hf
          refine ⟨[], c, rest, .handles rwc c (.ok (pre ++ x :: post)) ::
            (pre.map (fun handle => .flushContext rwc handle none) ++
              [.flushContext rwc x (some cause)]), rfl, ?_,
            Or.inr ⟨pre, x, post, cause, by rw [← h.1, he], rfl⟩⟩
          rw [← h.2, htr, hsplit]
          simp [World.emit, flushScript]
      | none =>
        have htr := hfl.1 w2 hf
        have ih2 := ih w2
        constructor
        · intro w1 h
          simp only [flushClasses, hh, hf] at h
          obtain ⟨answers, hmap, htr2⟩ := ih2.1 w1 h
          refine ⟨(c, handles) :: answers, by simp [hmap], ?_⟩
          rw [htr2, htr]
          simp [World.emit, flushScript]
        · intro e w1 h
          simp only [flushClasses, hh, hf] at h
          obtain ⟨answers, c2, later, tail, hsplit, htr2, hstep⟩ := ih2.2 e w1 h
          refine ⟨(c, handles) :: answers, c2, later, tail, by simp [hsplit], ?_, hstep⟩
          rw [htr2, htr]
          simp [World.emit, flushScript]


/-- C9, as stated, fails: on a flush of all classes in which the enumeration of the loaded
sessions fails, `loadTPM` returns an error that names no handle, and the classes of saved
sessions and transient objects are never enumerated although the device holds a handle of
each: after the failed enumeration the only event is the close of the device. -/
theorem loadTPM_aborts_on_failed_enumeration :
    (loadTPM simTPM "/dev/tpmrm0" "all" (startWorld stuckDevice [])).1 =
        (none, some (.gettingHandles (.external "TPM_RC_FAILURE"))) ∧
      (loadTPM simTPM "/dev/tpmrm0" "all" (startWorld stuckDevice [])).2.trace =
        [.openTPM "/dev/tpmrm0",
          .handles 3 .HandleTypeLoadedSession (.fail (.external "TPM_RC_FAILURE")),
          .close 3] ∧
      handleNames "all" =
        [.HandleTypeLoadedSession, .HandleTypeSavedSession, .HandleTypeTransient] ∧
      handleNames "none" = [] := by
  decide

/-- C9, amended: on an opened device, the flush step of `loadTPM` enumerates the requested
classes in order and flushes the handles each enumeration returned. Either the device
answered every enumeration with a list of handles and every flush with a nil error: then
every requested class was enumerated, every handle returned was flushed, and the open session
is returned with a nil error. Or the run stops at the first command the device answered with
an error: every command before it succeeded, the failing command is followed only by the
close of the device, the handles and the classes after the failing one are left alone, and no
session is returned; the error of a failed flush names the handle and carries the cause, the
error of a failed enumeration carries the cause alone. -/
theorem loadTPM_flush {σ : Type} (hw : TPM σ) (device flush : String) (w : World σ) (rwc : RWC)
    (t1 : σ) (hopen : hw.OpenTPM device w.tpm = (.ok rwc, t1)) :
    (∃ answers, answers.map Prod.fst = handleNames flush ∧
      (loadTPM hw device flush w).1 = (some rwc, none) ∧
      (loadTPM hw device flush w).2.trace =
        w.trace ++ .openTPM device :: flushScript rwc answers) ∨
    (∃ answers c later tail e, handleNames flush = answers.map Prod.fst ++ c :: later ∧
      (loadTPM hw device flush w).1 = (none, some e) ∧ failedStep rwc c e tail ∧
      (loadTPM hw device flush w).2.trace =
        w.trace ++ .openTPM device :: (flushScript rwc answers ++ tail ++ [.close rwc])) := by
  have hloops := flushClasses_trace hw rwc (handleNames flush)
    ({ w with tpm := t1 }.emit (.openTPM device))
  rcases hf : flushClasses hw rwc (handleNames flush)
    ({ w with tpm := t1 }.emit (.openTPM device)) with ⟨r, w2⟩
  cases r with
  | none =>
    obtain ⟨answers, hmap, htr⟩ := hloops.1 w2 hf
    refine Or.inl ⟨answers, hmap, ?_, ?_⟩
    · simp [loadTPM, hopen, hf]
    · simp only [loadTPM, hopen, hf, htr]
      simp [World.emit]
  | some e =>
    obtain ⟨answers, c, later, tail, hsplit, htr, hstep⟩ := hloops.2 e w2 hf
    refine Or.inr ⟨answers, c, later, tail, e, hsplit, ?_, hstep, ?_⟩
    · simp [loadTPM, hopen, hf]
    · simp only [loadTPM, hopen, hf]
      simp only [runDeferred, Deferred.run, World.emit, htr]
      simp [World.emit]

/-- C9, amended, on a simulated device on which the flush of the second loaded session
fails: the first loaded session is flushed, the failed flush ends the run, the saved session
is neither enumerated nor flushed, and the device is closed. -/
theorem loadTPM_flush_witness :
    simTPM.OpenTPM "/dev/tpmrm0" (startWorld brokenFlushDevice []).tpm =
      (.ok 3, brokenFlushDevice) ∧
    (loadTPM simTPM "/dev/tpmrm0" "all" (startWorld brokenFlushDevice [])).1 =
      (none, some (.flushingHandle 0x02000001 (.external "TPM_RC_HANDLE"))) ∧
    (loadTPM simTPM "/dev/tpmrm0" "all" (startWorld brokenFlushDevice [])).2.trace =
      [.openTPM "/dev/tpmrm0",
        .handles 3 .HandleTypeLoadedSession (.ok [0x02000000, 0x02000001]),
        .flushContext 3 0x02000000 none,
        .flushContext 3 0x02000001 (some (.external "TPM_RC_HANDLE")),
        .close 3] ∧
    ((∃ answers, answers.map Prod.fst = handleNames "all" ∧
      (loadTPM simTPM "/dev/tpmrm0" "all" (startWorld brokenFlushDevice [])).1 = (some 3, none) ∧
      (loadTPM simTPM "/dev/tpmrm0" "all" (startWorld brokenFlushDevice [])).2.trace =
        (startWorld brokenFlushDevice []).trace ++
          .openTPM "/dev/tpmrm0" :: flushScript 3 answers) ∨
    (∃ answers c later tail e, handleNames "all" = answers.map Prod.fst ++ c :: later ∧
      (loadTPM simTPM "/dev/tpmrm0" "all" (startWorld brokenFlushDevice [])).1 = (none, some e) ∧
      failedStep 3 c e tail ∧
      (loadTPM simTPM "/dev/tpmrm0" "all" (startWorld brokenFlushDevice [])).2.trace =
        (startWorld brokenFlushDevice []).trace ++
          .openTPM "/dev/tpmrm0" :: (flushScript 3 answers ++ tail ++ [.close 3]))) :=
  ⟨rfl, by decide, by decide,
    loadTPM_flush simTPM "/dev/tpmrm0" "all" (startWorld brokenFlushDevice []) 3
      brokenFlushDevice rfl⟩

/-- The flush of all classes on a simulated device that answers every command with success:
every class is enumerated and every handle is flushed, and the open session is returned. -/
theorem loadTPM_flush_all_scenario :
    (loadTPM simTPM "/dev/tpmrm0" "all"
        (startWorld { brokenFlushDevice with failFlush := [] } [])).1 = (some 3, none) ∧
    (loadTPM simTPM "/dev/tpmrm0" "all"
        (startWorld { brokenFlushDevice with failFlush := [] } [])).2.trace =
      [.openTPM "/dev/tpmrm0",
        .handles 3 .HandleTypeLoadedSession (.ok [0x02000000, 0x02000001]),
        .flushContext 3 0x02000000 none,
        .flushContext 3 0x02000001 none,
        .handles 3 .HandleTypeSavedSession (.ok [0x03000000]),
        .flushContext 3 0x03000000 none,
        .handles 3 .HandleTypeTransient (.ok [])] := by
  decide

/-! ## The cached public key -/

/-- No call of `Sign` writes a configuration. -/
theorem Sign_heap {σ : Type} (hw : TPM σ) (s : Ptr) (signingString : Bytes) (key : Any)
    (w : World σ) : (Sign hw s signingString key w).2.heap = w.heap := by
  cases key with
  | nil => rfl
  | rsaPublicKey k => rfl
  | ecdsaPublicKey k => rfl
  | bytes b => rfl
  | str x => rfl
  | context ctx =>
    rcases hctx : TPMFromContext ctx with ⟨q, ok⟩
    cases ok with
    | false => simp [Sign, hctx]
    | true =>
      cases q with
      | none => simp [Sign, hctx]
      | some p =>
        cases hcfg : w.heap[p]? with
        | none => simp [Sign, hctx, hcfg]
        | some config =>
          rcases hopen : hw.OpenTPM config.TPMDevice w.tpm with ⟨r, t1⟩
          cases r with
          | fail e =>
            rw [Sign_open_fail hw s signingString ctx w p config e t1 hctx hcfg hopen]
            rfl
          | ok rwc =>
            rw [Sign_opened hw s signingString ctx w p config rwc t1 hctx hcfg hopen]
            rcases hk : hw.NewKey rwc HandleOwner config.KeyTemplate t1 with ⟨r2, t2⟩
            cases r2 with
            | fail e => rfl
            | ok kk =>
              simp only []
              rcases hs : hw.SignData kk signingString t2 with ⟨r3, t3⟩
              cases r3 with
              | fail e => rfl
              | ok b => rfl

/-- No call of `Override` writes a configuration. -/
theorem Override_heap {σ : Type} (s : Ptr) (w : World σ) : (Override s w).2.heap = w.heap := by
  cases hm : w.methods[s]? with
  | none => simp [Override, hm]
  | some m =>
    cases ho : m.override with
    | none => simp [Override, hm, ho]
    | some o => simp [Override, hm, ho, RegisterSigningMethod]

/-- C8, as stated, fails: after a first successful `NewTPMContext` the configuration caches
the public key with modulus 15; after the owner hierarchy of the device is cleared, a second
successful `NewTPMContext` on the same configuration replaces it with the key of modulus 17
that the device now returns. -/
theorem NewTPMContext_overwrites_cached_key :
    TPMVerfiyKeyfunc .background 0 rsaStart = some .nil ∧
      (NewTPMContext simTPM (some .background) (some 0) rsaStart).1 =
        .returned (some (contextOf 0), none) ∧
      TPMVerfiyKeyfunc .background 0 rsaMaterialized = some (.rsaPublicKey { N := 15, E := 65537 }) ∧
      (NewTPMContext simTPM (some .background) (some 0)
          { rsaMaterialized with tpm := rsaMaterialized.tpm.clear }).1 =
        .returned (some (contextOf 0), none) ∧
      TPMVerfiyKeyfunc .background 0 rsaMaterializedAgain =
        some (.rsaPublicKey { N := 17, E := 65537 }) := by
  decide

/-- C8, amended: a call of `NewTPMContext` that returns an error returns no context and
leaves every configuration as it was, and so does a call that panics on a nil or unallocated
configuration; `Sign`, `Override` and `Verify` never write a configuration, whatever the
device returns. So the cached public key stays empty until a call of `NewTPMContext` obtains
a key from the device. Every call of `NewTPMContext` in which the device returns a key sets
the cached public key of its configuration to the public key of that key, replacing the key
cached before: the call that succeeds, and also the call with a nil parent context, which
panics in `context.WithValue` after the assignment. -/
theorem cached_key_written_by_NewTPMContext_only {σ : Type} (crypto : Crypto) (hw : TPM σ)
    (parent : Option Context) (val : Option Ptr) (w : World σ) (s : Ptr)
    (signingString : Bytes) (signature : String) (key : Any) (heap2 : List TPMConfig) :
    (match NewTPMContext hw parent val w with
      | (.returned (some _, none), w1) =>
        ∃ p cfg rwc k t1 t2 parentCtx, parent = some parentCtx ∧ val = some p ∧
          w.heap[p]? = some cfg ∧
          hw.OpenTPM cfg.TPMDevice w.tpm = (.ok rwc, t1) ∧
          hw.NewKey rwc HandleOwner cfg.KeyTemplate t1 = (.ok k, t2) ∧
          w1.heap = w.heap.set p { cfg with publicKeyFromTPM := k.pubKey }
      | (.returned (none, some _), w1) => w1.heap = w.heap
      | (.returned _, _) => False
      | (.panicked, w1) =>
        ((val = none ∨ ∃ p, val = some p ∧ w.heap[p]? = none) ∧ w1 = w) ∨
        (∃ p cfg rwc k t1 t2, parent = none ∧ val = some p ∧ w.heap[p]? = some cfg ∧
          hw.OpenTPM cfg.TPMDevice w.tpm = (.ok rwc, t1) ∧
          hw.NewKey rwc HandleOwner cfg.KeyTemplate t1 = (.ok k, t2) ∧
          w1.heap = w.heap.set p { cfg with publicKeyFromTPM := k.pubKey })) ∧
    (Sign hw s signingString key w).2.heap = w.heap ∧
    (Override s w).2.heap = w.heap ∧
    Verify crypto s signingString signature key { w with heap := heap2 } =
      Verify crypto s signingString signature key w := by
  refine ⟨?_, Sign_heap hw s signingString key w, Override_heap s w, rfl⟩
  cases val with
  | none => simp [NewTPMContext]
  | some p =>
    cases hcfg : w.heap[p]? with
    | none =>
      simp only [NewTPMContext, hcfg]
      exact Or.inl ⟨Or.inr ⟨p, rfl, hcfg⟩, trivial⟩
    | some cfg =>
      rcases hopen : hw.OpenTPM cfg.TPMDevice w.tpm with ⟨r, t1⟩
      cases r with
      | fail e =>
        rw [NewTPMContext_open_fail hw parent w p cfg e t1 hcfg hopen]
        rfl
      | ok rwc =>
        rw [NewTPMContext_opened hw parent w p cfg rwc t1 hcfg hopen]
        rcases hk : hw.NewKey rwc HandleOwner cfg.KeyTemplate t1 with ⟨r2, t2⟩
        cases r2 with
        | fail e => rfl
        | ok k =>
          cases parent with
          | none => exact Or.inr ⟨p, cfg, rwc, k, t1, t2, rfl, rfl, hcfg, hopen, hk, rfl⟩
          | some parentCtx => exact ⟨p, cfg, rwc, k, t1, t2, parentCtx, rfl, rfl, hcfg, hopen, hk, rfl⟩

/-- The call of `NewTPMContext` with a nil parent context on the simulated device: it
panics, and the configuration caches the public key of the key the device returned. -/
theorem NewTPMContext_nil_parent_scenario :
    (NewTPMContext simTPM none (some 0) rsaStart).1 = .panicked ∧
      TPMVerfiyKeyfunc .background 0 (NewTPMContext simTPM none (some 0) rsaStart).2 =
        some (.rsaPublicKey { N := 15, E := 65537 }) ∧
      (NewTPMContext simTPM none (some 0) rsaStart).2.trace =
        [.openTPM "/dev/tpmrm0", .newKey 3 HandleOwner UnrestrictedKeyParametersRSA256,
          .printf [toByte 7],
          .keyClose { handle := 0x80000000, pubKey := .rsaPublicKey { N := 15, E := 65537 },
                      name := [toByte 7] },
          .close 3] := by
  decide

/-! ## The registry -/

/-- A lookup of the name just registered finds the registered function. -/
theorem lookup_register {σ : Type} (alg : String) (f : Factory) (w : World σ) :
    (RegisterSigningMethod alg f w).signingMethods.lookup alg = some f := by
  simp [RegisterSigningMethod]

/-- C10: in the state `init` leaves, the lookup of `TPMRS256` resolves to the adapter, whose
`Alg()` is `TPMRS256`, whose `Hash()` is SHA-256 and whose software fallback is
`jwt.SigningMethodRS256` with `Alg()` equal to `RS256`. In every state in which the adapter
is allocated with that fallback, `Override` returns, after it every lookup of `RS256`, in
every later state that holds the same registry map, resolves to the same adapter, the
adapter's `Alg()` is `RS256`, and a second `Override` changes nothing. -/
theorem Override_registers_adapter {σ : Type} (w0 w : World σ) (s : Ptr) (m : SigningMethodTPM)
    (hm : w.methods[s]? = some m) (ho : m.override = some SigningMethodRS256) :
    (GetSigningMethod "TPMRS256" (init w0) = .tpm w0.methods.length ∧
      Alg w0.methods.length (init w0) = some "TPMRS256" ∧
      SigningMethodTPM.Hash w0.methods.length (init w0) = some .SHA256 ∧
      (init w0).methods[w0.methods.length]? =
        some { alg := "TPMRS256", override := some SigningMethodRS256, hasher := .SHA256 } ∧
      SigningMethodRS256.Alg = "RS256") ∧
    (Override s w).1 = .returned () ∧
    (∀ w3 : World σ, w3.signingMethods = (Override s w).2.signingMethods →
      GetSigningMethod "RS256" w3 = .tpm s) ∧
    Alg s (Override s w).2 = some "RS256" ∧
    Override s (Override s w).2 = (.returned (), (Override s w).2) := by
  have hlt : s < w.methods.length := (List.getElem?_eq_some.mp hm).1
  have hinit : (init w0).methods[w0.methods.length]? =
      some { alg := "TPMRS256", override := some SigningMethodRS256, hasher := .SHA256 } := by
    simp [init, Alg, RegisterSigningMethod]
  have hov : Override s w = (.returned (),
      RegisterSigningMethod "RS256" (.const (.tpm s))
        { w with methods := w.methods.set s { m with alg := "RS256" } }) := by
    simp [Override, hm, ho, SigningMethodRSA.Alg, SigningMethodRS256]
  refine ⟨⟨?_, ?_, ?_, hinit, rfl⟩, ?_, ?_, ?_, ?_⟩
  · simp [init, Alg, GetSigningMethod, RegisterSigningMethod, Factory.call]
  · simp [Alg, hinit]
  · simp [SigningMethodTPM.Hash, hinit]
  · rw [hov]
  · intro w3 h3
    rw [hov] at h3
    simp [GetSigningMethod, h3, RegisterSigningMethod, Factory.call]
  · rw [hov]
    simp [Alg, RegisterSigningMethod, List.getElem?_set_self hlt]
  · rw [hov]
    simp [Override, RegisterSigningMethod, List.getElem?_set_self hlt, ho,
      SigningMethodRSA.Alg, SigningMethodRS256, List.filter_filter]

/-- C10 on the process the scenario starts in. -/
theorem Override_registers_adapter_witness :
    rsaStart.methods[0]? =
        some { alg := "TPMRS256", override := some SigningMethodRS256, hasher := .SHA256 } ∧
    ((GetSigningMethod "TPMRS256" (init (startWorld simDevice [exampleConfig])) =
        .tpm (startWorld simDevice [exampleConfig]).methods.length ∧
      Alg (startWorld simDevice [exampleConfig]).methods.length
        (init (startWorld simDevice [exampleConfig])) = some "TPMRS256" ∧
      SigningMethodTPM.Hash (startWorld simDevice [exampleConfig]).methods.length
        (init (startWorld simDevice [exampleConfig])) = some .SHA256 ∧
      (init (startWorld simDevice [exampleConfig])).methods[
          (startWorld simDevice [exampleConfig]).methods.length]? =
        some { alg := "TPMRS256", override := some SigningMethodRS256, hasher := .SHA256 } ∧
      SigningMethodRS256.Alg = "RS256") ∧
    (Override 0 rsaStart).1 = .returned () ∧
    (∀ w3 : World SimTPM, w3.signingMethods = (Override 0 rsaStart).2.signingMethods →
      GetSigningMethod "RS256" w3 = .tpm 0) ∧
    Alg 0 (Override 0 rsaStart).2 = some "RS256" ∧
    Override 0 (Override 0 rsaStart).2 = (.returned (), (Override 0 rsaStart).2)) :=
  ⟨rfl, Override_registers_adapter (startWorld simDevice [exampleConfig]) rsaStart 0
    { alg := "TPMRS256", override := some SigningMethodRS256, hasher := .SHA256 } rfl rfl⟩

/-- A toy signature has 256 bytes. -/
theorem toySignature_length (n : Nat) (hashed : Bytes) : (toySignature n hashed).length = 256 := by
  simp [toySignature]

/-- The scenario of the unrestricted RSA template on the simulated device: the signature of
`hello` has 342 characters, verifies under the cached key for `hello` and is rejected for
`hellp`. -/
theorem scenario_hello :
    (RawURLEncoding.EncodeToString (toySignature 15 hello)).length = 342 ∧
      Verify toyCrypto 0 hello (RawURLEncoding.EncodeToString (toySignature 15 hello))
        (.rsaPublicKey { N := 15, E := 65537 }) rsaMaterialized = .returned none ∧
      Verify toyCrypto 0 hellp (RawURLEncoding.EncodeToString (toySignature 15 hello))
        (.rsaPublicKey { N := 15, E := 65537 }) rsaMaterialized =
        .returned (some .ErrVerification) := by
  have hm : rsaMaterialized.methods[0]? =
      some { alg := "TPMRS256", override := some SigningMethodRS256, hasher := .SHA256 } := rfl
  refine ⟨?_, ?_, ?_⟩
  · rw [show (RawURLEncoding.EncodeToString (toySignature 15 hello)).length = _ from
      Encode_length _, toySignature_length]
  · rw [Verify_encoded toyCrypto 0 _ hello _ _ _ hm rfl]
    simp [rs256VerifyBytes, toyCrypto]
  · rw [Verify_encoded toyCrypto 0 _ hellp _ _ _ hm rfl]
    simp only [rs256VerifyBytes, toyCrypto]
    decide

end TpmJwt
